import Mathlib

/-!
Alarm controller (Example 3.5): shallow embedding of `src/main.cpp`

The program is a single polling loop

    while (true) { alarmActivationUpdate(); alarmDeactivationUpdate(); uartTask(); delay(10); }

over a set of global variables.  The globals (together with the pins the
program drives and the function-local static `lm35SampleIndex`) are gathered
in the record `State`; every function of the source becomes a function on
`State`.

Modelling conventions.

* `int` variables that take part in arithmetic (`numberOfIncorrectCodes`,
  `accumulatedTimeAlarm`) are `Int`, and every `+` on them goes through
  `wrapInt`, the 32-bit two's complement wrap-around of the target.
* `int` variables that are only ever array indices / loop counters
  (`lm35SampleIndex`, `buttonBeingCompared`, the local `i`) are `Nat`; arrays
  are functions from the index.
* `float` values are exact rationals (`ℚ`).
* `DigitalIn` objects are sampled once per loop iteration (`Inputs`).
* `uartUsb.read` is a blocking read: a function that performs one returns
  `none` when the byte never arrives.
* `sprintf( str, "%.2f", x )` belongs to the C library; the decimal rendering is
  the parameter `fmt2f` of `uartTask`.
-/

namespace Alarm

/-! ## Defines -/

/-- Number of code buttons (`NUMBER_OF_KEYS`). -/
def NUMBER_OF_KEYS : Nat := 4
/-- Blink period in ms when only gas is detected. -/
def BLINKING_TIME_GAS_ALARM : Int := 1000
/-- Blink period in ms when only over temperature is detected. -/
def BLINKING_TIME_OVER_TEMP_ALARM : Int := 500
/-- Blink period in ms when both gas and over temperature are detected. -/
def BLINKING_TIME_GAS_AND_OVER_TEMP_ALARM : Int := 100
/-- Length of the moving-average window. -/
def NUMBER_OF_AVG_SAMPLES : Nat := 100
/-- Over temperature threshold in degrees Celsius. -/
def OVER_TEMP_LEVEL : ℚ := 50
/-- Duration of one loop iteration in ms. -/
def TIME_INCREMENT_MS : Int := 10

/-- Smallest value of a 32-bit `int`. -/
def INT_MIN : Int := -2147483648
/-- Largest value of a 32-bit `int`. -/
def INT_MAX : Int := 2147483647

/-- Two's complement reduction of an integer to the range of a 32-bit `int`. -/
def wrapInt (x : Int) : Int := (x + 2147483648) % 4294967296 - 2147483648

/-! ## Global state -/

/-- The global variables of `main.cpp`, the output pins and the static local
`lm35SampleIndex` of `alarmActivationUpdate`. -/
structure State where
  /-- Pin `DigitalOut alarmLed(LED1)`. -/
  alarmLed : Bool
  /-- Pin `DigitalOut incorrectCodeLed(LED3)`. -/
  incorrectCodeLed : Bool
  /-- Pin `DigitalOut systemBlockedLed(LED2)`. -/
  systemBlockedLed : Bool
  /-- Direction of `DigitalInOut sirenPin`: `true` after `output()`, `false` after `input()`. -/
  sirenPinIsOutput : Bool
  /-- Output latch of `sirenPin` (`false` is `LOW`). -/
  sirenPinValue : Bool
  alarmState : Bool
  incorrectCode : Bool
  overTempDetector : Bool
  numberOfIncorrectCodes : Int
  buttonBeingCompared : Nat
  codeSequence : Nat → Int
  buttonsPressed : Nat → Int
  accumulatedTimeAlarm : Int
  gasDetectorState : Bool
  overTempDetectorState : Bool
  potentiometerReading : ℚ
  lm35ReadingsAverage : ℚ
  lm35ReadingsSum : ℚ
  lm35ReadingsArray : Nat → ℚ
  lm35TempC : ℚ
  /-- The `static int lm35SampleIndex` of `alarmActivationUpdate`. -/
  lm35SampleIndex : Nat

/-- What the input pins read during one iteration of the main loop. -/
structure Inputs where
  enterButton : Bool
  alarmTestButton : Bool
  aButton : Bool
  bButton : Bool
  cButton : Bool
  dButton : Bool
  /-- Gas sensor, active low. -/
  mq2 : Bool
  /-- Value of `potentiometer.read()`. -/
  potentiometer : ℚ
  /-- Value of `lm35.read()`. -/
  lm35 : ℚ

/-- The bytes the serial port delivers to one call of `uartTask`: `pending` is
the byte already waiting when `uartUsb.readable()` is polled (`none` when it
reports nothing to read), `later` are the bytes that arrive afterwards, in
order, and feed the blocking reads of the code sub-protocols. -/
structure UartIn where
  pending : Option Char
  later : List Char

/-- Result of one call of `uartTask`: the new state, the bytes written to the
serial port, and the bytes of `UartIn.later` that were not consumed. -/
structure UartResult where
  state : State
  tx : List Char
  rest : List Char

/-- The initial value `{ 1, 1, 0, 0 }` of `codeSequence`. -/
def initialCodeSequence : Nat → Int := fun i => [1, 1, 0, 0].getD i 0

/-- The state when the main loop is entered: the initialisers of the globals
followed by `inputsInit()` (siren pin switched to input) and `outputsInit()`
(the three LEDs off). -/
def initialState : State where
  alarmLed := false
  incorrectCodeLed := false
  systemBlockedLed := false
  sirenPinIsOutput := false
  sirenPinValue := false
  alarmState := false
  incorrectCode := false
  overTempDetector := false
  numberOfIncorrectCodes := 0
  buttonBeingCompared := 0
  codeSequence := initialCodeSequence
  buttonsPressed := fun _ => 0
  accumulatedTimeAlarm := 0
  gasDetectorState := false
  overTempDetectorState := false
  potentiometerReading := 0
  lm35ReadingsAverage := 0
  lm35ReadingsSum := 0
  lm35ReadingsArray := fun _ => 0
  lm35TempC := 0
  lm35SampleIndex := 0

/-- Conversion of a `DigitalIn` reading to `int`. -/
def pinToInt (b : Bool) : Int := if b then 1 else 0

/-! ## Conversions -/

/-- Source: `analogReading * 3.3 / 0.01`, a `float` argument multiplied and
divided in `double` and rounded back to `float`.  Here it is the same
expression over the rationals: the roundings are not modelled. -/
def analogReadingScaledWithTheLM35Formula (analogReading : ℚ) : ℚ :=
  analogReading * (33 / 10) / (1 / 100)

/-- Source: `tempInCelsiusDegrees * 9.0 / 5.0 + 32.0`, computed in `double` and
rounded to `float`.  Here it is the same expression over the rationals: the
roundings are not modelled. -/
def celsiusToFahrenheit (tempInCelsiusDegrees : ℚ) : ℚ :=
  tempInCelsiusDegrees * 9 / 5 + 32

/-! ## areEqual -/

/-- The loop of `areEqual`, entered at index `i` with `k` iterations left:
returns `false` at the first index where the two arrays differ. -/
def areEqualLoop (codeSequence buttonsPressed : Nat → Int) : Nat → Nat → Bool
  | 0, _ => true
  | k + 1, i =>
    if codeSequence i ≠ buttonsPressed i then false
    else areEqualLoop codeSequence buttonsPressed k (i + 1)

/-- Source: `bool areEqual()`: `for (i = 0; i < NUMBER_OF_KEYS; i++)`. -/
def areEqual (s : State) : Bool :=
  areEqualLoop s.codeSequence s.buttonsPressed NUMBER_OF_KEYS 0

/-! ## alarmActivationUpdate -/

/-- The summation loop `for (i = 0; i < NUMBER_OF_AVG_SAMPLES; i++)`, entered
at index `i` with `k` iterations left and running sum `sum`. -/
def lm35SumLoop (arr : Nat → ℚ) : Nat → Nat → ℚ → ℚ
  | 0, _, sum => sum
  | k + 1, i, sum => lm35SumLoop arr k (i + 1) (sum + arr i)

/-- First part of `alarmActivationUpdate` (lines 112-132): store the sample,
advance the ring index, recompute sum, average and temperature, and set
`overTempDetector`. -/
def lm35Update (s : State) (inp : Inputs) : State :=
  let s := { s with lm35ReadingsArray := Function.update s.lm35ReadingsArray s.lm35SampleIndex inp.lm35 }
  let s := { s with lm35SampleIndex := s.lm35SampleIndex + 1 }
  let s := if s.lm35SampleIndex ≥ NUMBER_OF_AVG_SAMPLES then { s with lm35SampleIndex := 0 } else s
  let s := { s with lm35ReadingsSum := 0 }
  let s := { s with lm35ReadingsSum := lm35SumLoop s.lm35ReadingsArray NUMBER_OF_AVG_SAMPLES 0 s.lm35ReadingsSum }
  let s := { s with lm35ReadingsAverage := s.lm35ReadingsSum / (NUMBER_OF_AVG_SAMPLES : ℚ) }
  let s := { s with lm35TempC := analogReadingScaledWithTheLM35Formula s.lm35ReadingsAverage }
  if s.lm35TempC > OVER_TEMP_LEVEL then { s with overTempDetector := true }
  else { s with overTempDetector := false }

/-- Second part of `alarmActivationUpdate` (lines 134-146): the three trigger
checks, each an `if` of its own. -/
def triggerChecks (s : State) (inp : Inputs) : State :=
  let s := if !inp.mq2 then { s with gasDetectorState := true, alarmState := true } else s
  let s := if s.overTempDetector then { s with overTempDetectorState := true, alarmState := true } else s
  let s := if inp.alarmTestButton then
      { s with overTempDetectorState := true, gasDetectorState := true, alarmState := true }
    else s
  s

/-- The blink control of the alarm LED (lines 152-167). -/
def alarmLedBlink (s : State) : State :=
  if s.gasDetectorState && s.overTempDetectorState then
    if s.accumulatedTimeAlarm ≥ BLINKING_TIME_GAS_AND_OVER_TEMP_ALARM then
      { s with accumulatedTimeAlarm := 0, alarmLed := !s.alarmLed }
    else s
  else if s.gasDetectorState then
    if s.accumulatedTimeAlarm ≥ BLINKING_TIME_GAS_ALARM then
      { s with accumulatedTimeAlarm := 0, alarmLed := !s.alarmLed }
    else s
  else if s.overTempDetectorState then
    if s.accumulatedTimeAlarm ≥ BLINKING_TIME_OVER_TEMP_ALARM then
      { s with accumulatedTimeAlarm := 0, alarmLed := !s.alarmLed }
    else s
  else s

/-- Last part of `alarmActivationUpdate` (lines 147-173): siren, blink timer
and LED when the alarm is on; LED, cause flags and siren when it is off. -/
def alarmOutputs (s : State) : State :=
  if s.alarmState then
    let s := { s with accumulatedTimeAlarm := wrapInt (s.accumulatedTimeAlarm + TIME_INCREMENT_MS) }
    let s := { s with sirenPinIsOutput := true }
    let s := { s with sirenPinValue := false }
    alarmLedBlink s
  else
    { s with alarmLed := false, gasDetectorState := false, overTempDetectorState := false,
             sirenPinIsOutput := false }

/-- Source: `void alarmActivationUpdate()`. -/
def alarmActivationUpdate (s : State) (inp : Inputs) : State :=
  alarmOutputs (triggerChecks (lm35Update s inp) inp)

/-! ## alarmDeactivationUpdate -/

/-- The four assignments `buttonsPressed[0] = aButton; ...; buttonsPressed[3] = dButton`. -/
def readButtons (s : State) (inp : Inputs) : State :=
  let s := { s with buttonsPressed := Function.update s.buttonsPressed 0 (pinToInt inp.aButton) }
  let s := { s with buttonsPressed := Function.update s.buttonsPressed 1 (pinToInt inp.bButton) }
  let s := { s with buttonsPressed := Function.update s.buttonsPressed 2 (pinToInt inp.cButton) }
  { s with buttonsPressed := Function.update s.buttonsPressed 3 (pinToInt inp.dButton) }

/-- Source: `void alarmDeactivationUpdate()`. -/
def alarmDeactivationUpdate (s : State) (inp : Inputs) : State :=
  if s.numberOfIncorrectCodes < 5 then
    let s := if inp.aButton && inp.bButton && inp.cButton && inp.dButton && !inp.enterButton then
        { s with incorrectCodeLed := false }
      else s
    if inp.enterButton && !s.incorrectCodeLed && s.alarmState then
      let s := readButtons s inp
      if areEqual s then
        { s with alarmState := false, numberOfIncorrectCodes := 0 }
      else
        { s with incorrectCodeLed := true,
                 numberOfIncorrectCodes := wrapInt (s.numberOfIncorrectCodes + 1) }
    else s
  else
    { s with systemBlockedLed := true }

/-! ## uartTask -/

/-- Source: `uartUsb.write( buffer, length )`: the first `length` bytes of
`buffer` are appended to what has been sent so far. -/
def uartWrite (tx : List Char) (buffer : String) (length : Nat) : List Char :=
  tx ++ buffer.toList.take length

/-- Source: `void availableCommands()`. -/
def availableCommands (tx : List Char) : List Char :=
  let tx := uartWrite tx "Available commands:\r\n" 21
  let tx := uartWrite tx "Press '1' to get the alarm state\r\n" 34
  let tx := uartWrite tx "Press '2' to get the gas detector state\r\n" 41
  let tx := uartWrite tx "Press '3' to get the over temperature detector state\r\n" 54
  let tx := uartWrite tx "Press '4' to enter the code sequence\r\n" 38
  let tx := uartWrite tx "Press '5' to enter a new code\r\n" 31
  let tx := uartWrite tx "Press 'P' or 'p' to get potentiometer reading\r\n" 47
  let tx := uartWrite tx "Press 'f' or 'F' to get lm35 reading in Fahrenheit\r\n" 52
  uartWrite tx "Press 'c' or 'C' to get lm35 reading in Celsius\r\n\r\n" 51

/-- The nine writes that open `case '4'` (lines 247-255). -/
def enterCodePrompt (tx : List Char) : List Char :=
  let tx := uartWrite tx "Please enter the code sequence.\r\n" 33
  let tx := uartWrite tx "First enter 'A', then 'B', then 'C', and " 41
  let tx := uartWrite tx "finally 'D' button\r\n" 20
  let tx := uartWrite tx "In each case type 1 for pressed or 0 for " 41
  let tx := uartWrite tx "not pressed\r\n" 13
  let tx := uartWrite tx "For example, for 'A' = pressed, " 32
  let tx := uartWrite tx "'B' = pressed, 'C' = not pressed, " 34
  let tx := uartWrite tx "'D' = not pressed, enter '1', then '1', " 40
  uartWrite tx "then '0', and finally '0'\r\n\r\n" 29

/-- The nine writes that open `case '5'` (lines 292-300). -/
def newCodePrompt (tx : List Char) : List Char :=
  let tx := uartWrite tx "Please enter new code sequence\r\n" 32
  let tx := uartWrite tx "First enter 'A', then 'B', then 'C', and " 41
  let tx := uartWrite tx "finally 'D' button\r\n" 20
  let tx := uartWrite tx "In each case type 1 for pressed or 0 for not " 45
  let tx := uartWrite tx "pressed\r\n" 9
  let tx := uartWrite tx "For example, for 'A' = pressed, 'B' = pressed," 46
  let tx := uartWrite tx " 'C' = not pressed," 19
  let tx := uartWrite tx "'D' = not pressed, enter '1', then '1', " 40
  uartWrite tx "then '0', and finally '0'\r\n\r\n" 29

/-- The loop of `case '4'` (lines 259-277) with `k` iterations left: each
iteration blocks for one byte, echoes `*`, and compares the byte with
`codeSequence[buttonBeingCompared]`.  It is `none` when a byte never arrives. -/
def enterCodeLoop : Nat → UartResult → Option UartResult
  | 0, r => some r
  | k + 1, r =>
    match r.rest with
    | [] => none
    | receivedChar :: rest =>
      let tx := uartWrite r.tx "*" 1
      let s := r.state
      let s :=
        if receivedChar = '1' then
          if s.codeSequence s.buttonBeingCompared ≠ 1 then { s with incorrectCode := true } else s
        else if receivedChar = '0' then
          if s.codeSequence s.buttonBeingCompared ≠ 0 then { s with incorrectCode := true } else s
        else { s with incorrectCode := true }
      enterCodeLoop k ⟨{ s with buttonBeingCompared := s.buttonBeingCompared + 1 }, tx, rest⟩

/-- The loop of `case '5'` (lines 302-314) with `k` iterations left: each
iteration blocks for one byte, echoes `*`, and stores a received `1` or `0`
in `codeSequence[buttonBeingCompared]`. -/
def newCodeLoop : Nat → UartResult → Option UartResult
  | 0, r => some r
  | k + 1, r =>
    match r.rest with
    | [] => none
    | receivedChar :: rest =>
      let tx := uartWrite r.tx "*" 1
      let s := r.state
      let s :=
        if receivedChar = '1' then
          { s with codeSequence := Function.update s.codeSequence s.buttonBeingCompared 1 }
        else if receivedChar = '0' then
          { s with codeSequence := Function.update s.codeSequence s.buttonBeingCompared 0 }
        else s
      newCodeLoop k ⟨{ s with buttonBeingCompared := s.buttonBeingCompared + 1 }, tx, rest⟩

/-- Source: `void uartTask()`.  The `switch` is the chain of comparisons of
`receivedChar` with the case labels. -/
def uartTask (fmt2f : ℚ → List Char) (s : State) (inp : Inputs) (u : UartIn) :
    Option UartResult :=
  match u.pending with
  | none => some ⟨s, [], u.later⟩
  | some receivedChar =>
    if receivedChar = '1' then
      if s.alarmState then
        some ⟨s, uartWrite [] "The alarm is activated\r\n" 24, u.later⟩
      else
        some ⟨s, uartWrite [] "The alarm is not activated\r\n" 28, u.later⟩
    else if receivedChar = '2' then
      if !inp.mq2 then
        some ⟨s, uartWrite [] "Gas is being detected\r\n" 22, u.later⟩
      else
        some ⟨s, uartWrite [] "Gas is not being detected\r\n" 27, u.later⟩
    else if receivedChar = '3' then
      if s.overTempDetector then
        some ⟨s, uartWrite [] "Temperature is above the maximum level\r\n" 40, u.later⟩
      else
        some ⟨s, uartWrite [] "Temperature is below the maximum level\r\n" 40, u.later⟩
    else if receivedChar = '4' then
      let tx := enterCodePrompt []
      let s := { s with incorrectCode := false }
      let s := { s with buttonBeingCompared := 0 }
      match enterCodeLoop NUMBER_OF_KEYS ⟨s, tx, u.later⟩ with
      | none => none
      | some r =>
        if r.state.incorrectCode = false then
          some ⟨{ r.state with alarmState := false, incorrectCodeLed := false,
                               numberOfIncorrectCodes := 0 },
                uartWrite r.tx "\r\nThe code is correct\r\n\r\n" 25, r.rest⟩
        else
          some ⟨{ r.state with incorrectCodeLed := true,
                               numberOfIncorrectCodes := wrapInt (r.state.numberOfIncorrectCodes + 1) },
                uartWrite r.tx "\r\nThe code is incorrect\r\n\r\n" 27, r.rest⟩
    else if receivedChar = '5' then
      let tx := newCodePrompt []
      let s := { s with buttonBeingCompared := 0 }
      match newCodeLoop NUMBER_OF_KEYS ⟨s, tx, u.later⟩ with
      | none => none
      | some r => some ⟨r.state, uartWrite r.tx "\r\nNew code generated\r\n\r\n" 24, r.rest⟩
    else if receivedChar = 'p' ∨ receivedChar = 'P' then
      let s := { s with potentiometerReading := inp.potentiometer }
      let str := "Potentiometer: ".toList ++ fmt2f s.potentiometerReading ++ "\r\n".toList
      some ⟨s, [] ++ str, u.later⟩
    else if receivedChar = 'c' ∨ receivedChar = 'C' then
      let str := "Temperature: ".toList ++ fmt2f s.lm35TempC ++ [' ', Char.ofNat 0xB0, ' ', 'C', '\r', '\n']
      some ⟨s, [] ++ str, u.later⟩
    else if receivedChar = 'f' ∨ receivedChar = 'F' then
      let str := "Temperature: ".toList ++ fmt2f (celsiusToFahrenheit s.lm35TempC)
        ++ [' ', Char.ofNat 0xB0, ' ', 'F', '\r', '\n']
      some ⟨s, [] ++ str, u.later⟩
    else
      some ⟨s, availableCommands [], u.later⟩

/-! ## The main loop -/

/-- One iteration of the `while (true)` loop of `main`:
`alarmActivationUpdate(); alarmDeactivationUpdate(); uartTask();`. -/
def tick (fmt2f : ℚ → List Char) (s : State) (inp : Inputs) (u : UartIn) : Option UartResult :=
  uartTask fmt2f (alarmDeactivationUpdate (alarmActivationUpdate s inp) inp) inp u

/-! ## Runs of the program and the disarm attempts they evaluate -/

/-- One call made by the main loop, with the inputs it reads. -/
inductive Op where
  /-- A call of `alarmActivationUpdate()`. -/
  | activation (inp : Inputs)
  /-- A call of `alarmDeactivationUpdate()`. -/
  | deactivation (inp : Inputs)
  /-- A call of `uartTask()`. -/
  | uart (inp : Inputs) (u : UartIn)

/-- The state after a call; `none` when the call never returns. -/
def Op.apply (fmt2f : ℚ → List Char) (s : State) : Op → Option State
  | .activation inp => some (alarmActivationUpdate s inp)
  | .deactivation inp => some (alarmDeactivationUpdate s inp)
  | .uart inp u => (uartTask fmt2f s inp u).map (fun r => r.state)

/-- The disarm attempt evaluated by `alarmDeactivationUpdate`, read off its
control flow: `some true` when the branch `areEqual()` is taken, `some false`
when its `else` branch is taken, `none` when the comparison is not reached. -/
def buttonAttempt (s : State) (inp : Inputs) : Option Bool :=
  if s.numberOfIncorrectCodes < 5 then
    let s := if inp.aButton && inp.bButton && inp.cButton && inp.dButton && !inp.enterButton then
        { s with incorrectCodeLed := false }
      else s
    if inp.enterButton && !s.incorrectCodeLed && s.alarmState then
      some (areEqual (readButtons s inp))
    else none
  else none

/-- The disarm attempt evaluated by `uartTask`, read off its control flow:
`some true` when `case '4'` ends in the branch `incorrectCode == false`,
`some false` when it ends in the `else` branch, `none` for every other command
(and when the four bytes never arrive). -/
def serialAttempt (s : State) (u : UartIn) : Option Bool :=
  if u.pending = some '4' then
    (enterCodeLoop NUMBER_OF_KEYS
      ⟨{ s with incorrectCode := false, buttonBeingCompared := 0 }, enterCodePrompt [], u.later⟩).map
      (fun r => r.state.incorrectCode == false)
  else none

/-- The disarm attempt a call evaluates in state `s`, if any, and its result
(`true` is accepted, `false` is rejected). -/
def Op.outcome (s : State) : Op → Option Bool
  | .activation _ => none
  | .deactivation inp => buttonAttempt s inp
  | .uart _ u => serialAttempt s u

/-- The state after a sequence of calls. -/
def runOps (fmt2f : ℚ → List Char) : State → List Op → Option State
  | s, [] => some s
  | s, op :: ops =>
    match op.apply fmt2f s with
    | none => none
    | some s' => runOps fmt2f s' ops

/-- The number of calls, in a sequence of calls started in `s`, that evaluate
a disarm attempt with result `b`. -/
def countOutcome (fmt2f : ℚ → List Char) (b : Bool) : State → List Op → Nat
  | _, [] => 0
  | s, op :: ops =>
    (if op.outcome s = some b then 1 else 0) +
      match op.apply fmt2f s with
      | none => 0
      | some s' => countOutcome fmt2f b s' ops

/-! ## Runs of whole iterations and the samples they feed -/

/-- The calls made by a sequence of iterations of the main loop, each with its
pin readings and serial input: `alarmActivationUpdate`, then
`alarmDeactivationUpdate`, then `uartTask`. -/
def tickOps : List (Inputs × UartIn) → List Op
  | [] => []
  | (inp, u) :: ts => .activation inp :: .deactivation inp :: .uart inp u :: tickOps ts

/-- The state after a sequence of iterations of the main loop. -/
def runTicks (fmt2f : ℚ → List Char) : State → List (Inputs × UartIn) → Option State
  | s, [] => some s
  | s, (inp, u) :: ts =>
    match tick fmt2f s inp u with
    | none => none
    | some r => runTicks fmt2f r.state ts

/-- The temperature sample a call reads with `lm35.read()`, if it reads one:
only `alarmActivationUpdate` does. -/
def Op.sample : Op → Option ℚ
  | .activation inp => some inp.lm35
  | .deactivation _ => none
  | .uart _ _ => none

/-- The temperature samples read by a sequence of calls, oldest first. -/
def samplesOf (ops : List Op) : List ℚ := ops.filterMap Op.sample

/-! ## Concrete inputs -/

/-- Inputs of an iteration in which nothing happens: no button is pressed,
the gas sensor reads high (no gas) and both analog readings are 0. -/
def quietInputs : Inputs where
  enterButton := false
  alarmTestButton := false
  aButton := false
  bButton := false
  cButton := false
  dButton := false
  mq2 := true
  potentiometer := 0
  lm35 := 0

/-- Inputs of an iteration in which the gas sensor reads low (gas detected)
and nothing else happens. -/
def gasInputs : Inputs := { quietInputs with mq2 := false }

/-- Inputs of an iteration in which `enterButton` is pressed while the code
buttons A, B, C, D read `a`, `b`, `c`, `d`; no gas, analog readings 0. -/
def enterInputs (a b c d : Bool) : Inputs :=
  { quietInputs with enterButton := true, aButton := a, bButton := b, cButton := c, dButton := d }

/-- The state after the first iteration's `alarmActivationUpdate()` when gas is
detected: alarm on with gas as its cause, siren driven, 10 ms accumulated. -/
def gasAlarmState : State :=
  { initialState with
      alarmState := true, gasDetectorState := true, sirenPinIsOutput := true,
      accumulatedTimeAlarm := 10, lm35SampleIndex := 1 }

/-- The state `gasAlarmState` with five failures counted. -/
def lockedState : State := { gasAlarmState with numberOfIncorrectCodes := 5 }

/-- A call of `uartTask` that receives the command `4` followed by `0 0 0 0`. -/
def rejectedSerialAttempt : Op := .uart quietInputs ⟨some '4', ['0', '0', '0', '0']⟩

/-- The initial state with every slot of the temperature ring buffer at 1/2
(half of the analog range, 165 degrees Celsius). -/
def warmState : State := { initialState with lm35ReadingsArray := fun _ => 1 / 2 }

/-- Inputs of an iteration in which the temperature sensor reads 1/2 and
nothing else happens. -/
def warmInputs : Inputs := { quietInputs with lm35 := 1 / 2 }

/-- The state `lockedState` with the lock indicator and the incorrect-code
indicator both on. -/
def blockedState : State :=
  { lockedState with systemBlockedLed := true, incorrectCodeLed := true }

/-- A state with the alarm on, both cause flags set, the LED off and 90 ms on
the blink timer. -/
def bothCausesState : State :=
  { gasAlarmState with overTempDetectorState := true, accumulatedTimeAlarm := 90 }

/-- The state after the alarm of `gasAlarmState` has been switched off by the
serial command `4` with the stored code: `uartTask` has cleared `alarmState`,
`incorrectCodeLed` and the counter, and left its loop index at 4. -/
def disarmedState : State :=
  { gasAlarmState with
      incorrectCode := false, buttonBeingCompared := 4, alarmState := false,
      incorrectCodeLed := false, numberOfIncorrectCodes := 0 }

/-! ## Code comparison (`areEqual`) -/

/-- The comparison loop started at index `i` with `k` iterations left answers
`true` exactly when the two arrays agree on the indices `i, ..., i + k - 1`. -/
theorem areEqualLoop_eq_true_iff (c b : Nat → Int) (k i : Nat) :
    areEqualLoop c b k i = true ↔ ∀ j, i ≤ j → j < i + k → c j = b j := by
  induction k generalizing i with
  | zero =>
    simp only [areEqualLoop, Nat.add_zero, true_iff]
    intro j h1 h2
    omega
  | succ k ih =>
    simp only [areEqualLoop, ne_eq, ite_not]
    by_cases h : c i = b i
    · rw [if_pos h, ih]
      constructor
      · intro hall j h1 h2
        rcases Nat.eq_or_lt_of_le h1 with hij | hij
        · rw [← hij]; exact h
        · exact hall j hij (by omega)
      · intro hall j h1 h2
        exact hall j (by omega) (by omega)
    · rw [if_neg h]
      constructor
      · intro hf; cases hf
      · intro hall
        exact absurd (hall i (Nat.le_refl i) (by omega)) h

/-- C1. `areEqual()` returns `true` if and only if `codeSequence[i]` equals
`buttonsPressed[i]` at each of the four positions `i = 0, 1, 2, 3`; a
difference at any one of the four positions makes it return `false`.  (This
holds for all `int` contents of the two arrays, in particular for contents in
`{0, 1}`.) -/
theorem areEqual_iff_all_positions_equal (s : State) :
    (areEqual s = true ↔ ∀ i, i < 4 → s.codeSequence i = s.buttonsPressed i) ∧
    (∀ i, i < 4 → s.codeSequence i ≠ s.buttonsPressed i → areEqual s = false) := by
  have key : areEqual s = true ↔ ∀ i, i < 4 → s.codeSequence i = s.buttonsPressed i := by
    unfold areEqual NUMBER_OF_KEYS
    rw [areEqualLoop_eq_true_iff]
    constructor
    · intro h i hi
      exact h i (Nat.zero_le i) (by omega)
    · intro h j _ hj
      exact h j (by omega)
  refine ⟨key, ?_⟩
  intro i hi hne
  cases hres : areEqual s with
  | false => rfl
  | true => exact absurd (key.mp hres i hi) hne

/-! ## Serial command `4`: entering the code -/

/-- One iteration of the loop of `case '4'` on a received byte `c`: the flag
`incorrectCode` is raised unless `c` is the digit stored at the current
position, the index advances, and `*` is echoed. -/
theorem enterCodeLoop_step (k : Nat) (s : State) (tx : List Char) (c : Char) (rx : List Char) :
    enterCodeLoop (k + 1) ⟨s, tx, c :: rx⟩ =
      enterCodeLoop k
        ⟨{ s with
            incorrectCode := s.incorrectCode ||
              !(decide (c = '1' ∧ s.codeSequence s.buttonBeingCompared = 1) ||
                decide (c = '0' ∧ s.codeSequence s.buttonBeingCompared = 0)),
            buttonBeingCompared := s.buttonBeingCompared + 1 },
         tx ++ ['*'], rx⟩ := by
  have h10 : ¬ ('1' = '0') := by decide
  have star : uartWrite tx "*" 1 = tx ++ ['*'] := rfl
  simp only [enterCodeLoop, star]
  by_cases h1 : c = '1'
  · subst h1
    by_cases hc : s.codeSequence s.buttonBeingCompared = 1 <;> simp [hc, h10]
  · by_cases h0 : c = '0'
    · subst h0
      by_cases hc : s.codeSequence s.buttonBeingCompared = 0 <;> simp [hc, h1]
    · simp [h1, h0]

/-- Closed form of `case '4'` when the four bytes arrive: the four
comparisons are folded into one flag. -/
theorem uartTask_enterCode_eq (fmt2f : ℚ → List Char) (s : State) (inp : Inputs)
    (r0 r1 r2 r3 : Char) (rest : List Char) :
    uartTask fmt2f s inp ⟨some '4', r0 :: r1 :: r2 :: r3 :: rest⟩ =
      if (decide (r0 = '1' ∧ s.codeSequence 0 = 1) || decide (r0 = '0' ∧ s.codeSequence 0 = 0)) &&
         (decide (r1 = '1' ∧ s.codeSequence 1 = 1) || decide (r1 = '0' ∧ s.codeSequence 1 = 0)) &&
         (decide (r2 = '1' ∧ s.codeSequence 2 = 1) || decide (r2 = '0' ∧ s.codeSequence 2 = 0)) &&
         (decide (r3 = '1' ∧ s.codeSequence 3 = 1) || decide (r3 = '0' ∧ s.codeSequence 3 = 0)) then
        some ⟨{ s with incorrectCode := false, buttonBeingCompared := 4, alarmState := false,
                       incorrectCodeLed := false, numberOfIncorrectCodes := 0 },
              enterCodePrompt [] ++ ['*', '*', '*', '*'] ++ "\r\nThe code is correct\r\n\r\n".toList,
              rest⟩
      else
        some ⟨{ s with incorrectCode := true, buttonBeingCompared := 4, incorrectCodeLed := true,
                       numberOfIncorrectCodes := wrapInt (s.numberOfIncorrectCodes + 1) },
              enterCodePrompt [] ++ ['*', '*', '*', '*'] ++ "\r\nThe code is incorrect\r\n\r\n".toList,
              rest⟩ := by
  have h41 : ¬ ('4' = '1') := by decide
  have h42 : ¬ ('4' = '2') := by decide
  have h43 : ¬ ('4' = '3') := by decide
  have hok : ∀ tx : List Char, uartWrite tx "\r\nThe code is correct\r\n\r\n" 25
      = tx ++ "\r\nThe code is correct\r\n\r\n".toList := fun _ => rfl
  have hko : ∀ tx : List Char, uartWrite tx "\r\nThe code is incorrect\r\n\r\n" 27
      = tx ++ "\r\nThe code is incorrect\r\n\r\n".toList := fun _ => rfl
  have hz : ∀ r : UartResult, enterCodeLoop 0 r = some r := fun _ => rfl
  simp only [uartTask, h41, h42, h43, if_false, NUMBER_OF_KEYS, enterCodeLoop_step, hz, hok, hko,
    Nat.zero_add, Nat.reduceAdd, Bool.false_or, List.append_assoc, List.cons_append, List.nil_append]
  generalize (decide (r0 = '1' ∧ s.codeSequence 0 = 1) || decide (r0 = '0' ∧ s.codeSequence 0 = 0)) = m0
  generalize (decide (r1 = '1' ∧ s.codeSequence 1 = 1) || decide (r1 = '0' ∧ s.codeSequence 1 = 0)) = m1
  generalize (decide (r2 = '1' ∧ s.codeSequence 2 = 1) || decide (r2 = '0' ∧ s.codeSequence 2 = 0)) = m2
  generalize (decide (r3 = '1' ∧ s.codeSequence 3 = 1) || decide (r3 = '0' ∧ s.codeSequence 3 = 0)) = m3
  cases m0 <;> cases m1 <;> cases m2 <;> cases m3 <;> rfl

/-- On values in the range of `int` the wrap-around is the identity. -/
theorem wrapInt_of_inRange (x : Int) (h1 : INT_MIN ≤ x) (h2 : x ≤ INT_MAX) : wrapInt x = x := by
  unfold INT_MIN at h1
  unfold INT_MAX at h2
  unfold wrapInt
  omega

/-- Command `4` with four bytes: the call returns, consumes the four bytes,
and takes the accepting branch exactly when every byte is the digit stored at
its position. -/
theorem uartTask_enterCode_cases (fmt2f : ℚ → List Char) (s : State) (inp : Inputs)
    (r0 r1 r2 r3 : Char) (rest : List Char) :
    ∃ res, uartTask fmt2f s inp ⟨some '4', r0 :: r1 :: r2 :: r3 :: rest⟩ = some res ∧
      res.rest = rest ∧
      ((((r0 = '1' ∧ s.codeSequence 0 = 1) ∨ (r0 = '0' ∧ s.codeSequence 0 = 0)) ∧
        ((r1 = '1' ∧ s.codeSequence 1 = 1) ∨ (r1 = '0' ∧ s.codeSequence 1 = 0)) ∧
        ((r2 = '1' ∧ s.codeSequence 2 = 1) ∨ (r2 = '0' ∧ s.codeSequence 2 = 0)) ∧
        ((r3 = '1' ∧ s.codeSequence 3 = 1) ∨ (r3 = '0' ∧ s.codeSequence 3 = 0))) →
          res.tx = enterCodePrompt [] ++ ['*', '*', '*', '*'] ++
            "\r\nThe code is correct\r\n\r\n".toList ∧
          res.state.alarmState = false ∧ res.state.incorrectCodeLed = false ∧
          res.state.numberOfIncorrectCodes = 0) ∧
      (¬ (((r0 = '1' ∧ s.codeSequence 0 = 1) ∨ (r0 = '0' ∧ s.codeSequence 0 = 0)) ∧
        ((r1 = '1' ∧ s.codeSequence 1 = 1) ∨ (r1 = '0' ∧ s.codeSequence 1 = 0)) ∧
        ((r2 = '1' ∧ s.codeSequence 2 = 1) ∨ (r2 = '0' ∧ s.codeSequence 2 = 0)) ∧
        ((r3 = '1' ∧ s.codeSequence 3 = 1) ∨ (r3 = '0' ∧ s.codeSequence 3 = 0))) →
          res.tx = enterCodePrompt [] ++ ['*', '*', '*', '*'] ++
            "\r\nThe code is incorrect\r\n\r\n".toList ∧
          res.state.incorrectCodeLed = true ∧
          res.state.numberOfIncorrectCodes = wrapInt (s.numberOfIncorrectCodes + 1) ∧
          (INT_MIN ≤ s.numberOfIncorrectCodes → s.numberOfIncorrectCodes < INT_MAX →
            res.state.numberOfIncorrectCodes = s.numberOfIncorrectCodes + 1)) := by
  rw [uartTask_enterCode_eq]
  by_cases hm :
      ((decide (r0 = '1' ∧ s.codeSequence 0 = 1) || decide (r0 = '0' ∧ s.codeSequence 0 = 0)) &&
       (decide (r1 = '1' ∧ s.codeSequence 1 = 1) || decide (r1 = '0' ∧ s.codeSequence 1 = 0)) &&
       (decide (r2 = '1' ∧ s.codeSequence 2 = 1) || decide (r2 = '0' ∧ s.codeSequence 2 = 0)) &&
       (decide (r3 = '1' ∧ s.codeSequence 3 = 1) || decide (r3 = '0' ∧ s.codeSequence 3 = 0))) = true
  · rw [if_pos hm]
    refine ⟨_, rfl, rfl, fun _ => ⟨rfl, rfl, rfl, rfl⟩, fun hn => ?_⟩
    exfalso
    apply hn
    simpa only [Bool.and_eq_true, Bool.or_eq_true, decide_eq_true_eq, and_assoc] using hm
  · rw [if_neg hm]
    refine ⟨_, rfl, rfl, fun hy => ?_, fun _ => ⟨rfl, rfl, rfl, fun h1 h2 => ?_⟩⟩
    · exfalso
      apply hm
      simpa only [Bool.and_eq_true, Bool.or_eq_true, decide_eq_true_eq, and_assoc] using hy
    · exact wrapInt_of_inRange _ (by unfold INT_MIN at *; omega) (by unfold INT_MAX at *; omega)

/-- C2. After the command byte `4` and four further bytes `r0 r1 r2 r3`,
`uartTask` returns, has consumed exactly those four bytes, and accepts the
attempt if and only if every `ri` is the character `1` or `0` and is the digit
stored at `codeSequence[i]`.  On acceptance it emits the prompt, four `*` and
`The code is correct`, and leaves `alarmState` OFF, `incorrectCodeLed` OFF and
`numberOfIncorrectCodes = 0`; otherwise it emits `The code is incorrect`, turns
`incorrectCodeLed` ON and increments `numberOfIncorrectCodes` (by one, as long
as the `int` increment does not overflow). -/
theorem uartTask_enterCode_attempt (fmt2f : ℚ → List Char) (s : State) (inp : Inputs)
    (r0 r1 r2 r3 : Char) (rest : List Char) :
    ∃ res, uartTask fmt2f s inp ⟨some '4', r0 :: r1 :: r2 :: r3 :: rest⟩ = some res ∧
      res.rest = rest ∧
      ((((r0 = '1' ∧ s.codeSequence 0 = 1) ∨ (r0 = '0' ∧ s.codeSequence 0 = 0)) ∧
        ((r1 = '1' ∧ s.codeSequence 1 = 1) ∨ (r1 = '0' ∧ s.codeSequence 1 = 0)) ∧
        ((r2 = '1' ∧ s.codeSequence 2 = 1) ∨ (r2 = '0' ∧ s.codeSequence 2 = 0)) ∧
        ((r3 = '1' ∧ s.codeSequence 3 = 1) ∨ (r3 = '0' ∧ s.codeSequence 3 = 0))) →
          res.tx = enterCodePrompt [] ++ ['*', '*', '*', '*'] ++
            "\r\nThe code is correct\r\n\r\n".toList ∧
          res.state.alarmState = false ∧ res.state.incorrectCodeLed = false ∧
          res.state.numberOfIncorrectCodes = 0) ∧
      (¬ (((r0 = '1' ∧ s.codeSequence 0 = 1) ∨ (r0 = '0' ∧ s.codeSequence 0 = 0)) ∧
        ((r1 = '1' ∧ s.codeSequence 1 = 1) ∨ (r1 = '0' ∧ s.codeSequence 1 = 0)) ∧
        ((r2 = '1' ∧ s.codeSequence 2 = 1) ∨ (r2 = '0' ∧ s.codeSequence 2 = 0)) ∧
        ((r3 = '1' ∧ s.codeSequence 3 = 1) ∨ (r3 = '0' ∧ s.codeSequence 3 = 0))) →
          res.tx = enterCodePrompt [] ++ ['*', '*', '*', '*'] ++
            "\r\nThe code is incorrect\r\n\r\n".toList ∧
          res.state.incorrectCodeLed = true ∧
          res.state.numberOfIncorrectCodes = wrapInt (s.numberOfIncorrectCodes + 1) ∧
          (INT_MIN ≤ s.numberOfIncorrectCodes → s.numberOfIncorrectCodes < INT_MAX →
            res.state.numberOfIncorrectCodes = s.numberOfIncorrectCodes + 1)) :=
  uartTask_enterCode_cases fmt2f s inp r0 r1 r2 r3 rest

/-- C2, the two runs named in the claim, from the initial state (stored code
`{1, 1, 0, 0}`, counter 0): the bytes `1 1 0 0` are accepted, the bytes
`1 0 0 0` are rejected and leave the counter at 1. -/
theorem uartTask_enterCode_attempt_witness :
    (∃ res, uartTask (fun _ => []) initialState quietInputs ⟨some '4', ['1', '1', '0', '0']⟩ = some res ∧
      res.rest = [] ∧
      res.tx = enterCodePrompt [] ++ ['*', '*', '*', '*'] ++ "\r\nThe code is correct\r\n\r\n".toList ∧
      res.state.alarmState = false ∧ res.state.incorrectCodeLed = false ∧
      res.state.numberOfIncorrectCodes = 0) ∧
    (∃ res, uartTask (fun _ => []) initialState quietInputs ⟨some '4', ['1', '0', '0', '0']⟩ = some res ∧
      res.rest = [] ∧
      res.tx = enterCodePrompt [] ++ ['*', '*', '*', '*'] ++ "\r\nThe code is incorrect\r\n\r\n".toList ∧
      res.state.incorrectCodeLed = true ∧ res.state.numberOfIncorrectCodes = 1) := by
  constructor
  · obtain ⟨res, h, hrest, hacc, _⟩ :=
      uartTask_enterCode_attempt (fun _ => []) initialState quietInputs '1' '1' '0' '0' []
    have hcode : ((('1' : Char) = '1' ∧ initialState.codeSequence 0 = 1) ∨
          (('1' : Char) = '0' ∧ initialState.codeSequence 0 = 0)) ∧
        ((('1' : Char) = '1' ∧ initialState.codeSequence 1 = 1) ∨
          (('1' : Char) = '0' ∧ initialState.codeSequence 1 = 0)) ∧
        ((('0' : Char) = '1' ∧ initialState.codeSequence 2 = 1) ∨
          (('0' : Char) = '0' ∧ initialState.codeSequence 2 = 0)) ∧
        ((('0' : Char) = '1' ∧ initialState.codeSequence 3 = 1) ∨
          (('0' : Char) = '0' ∧ initialState.codeSequence 3 = 0)) := by decide
    exact ⟨res, h, hrest, hacc hcode⟩
  · obtain ⟨res, h, hrest, _, hrej⟩ :=
      uartTask_enterCode_attempt (fun _ => []) initialState quietInputs '1' '0' '0' '0' []
    have hcode : ¬ (((('1' : Char) = '1' ∧ initialState.codeSequence 0 = 1) ∨
          (('1' : Char) = '0' ∧ initialState.codeSequence 0 = 0)) ∧
        ((('0' : Char) = '1' ∧ initialState.codeSequence 1 = 1) ∨
          (('0' : Char) = '0' ∧ initialState.codeSequence 1 = 0)) ∧
        ((('0' : Char) = '1' ∧ initialState.codeSequence 2 = 1) ∨
          (('0' : Char) = '0' ∧ initialState.codeSequence 2 = 0)) ∧
        ((('0' : Char) = '1' ∧ initialState.codeSequence 3 = 1) ∨
          (('0' : Char) = '0' ∧ initialState.codeSequence 3 = 0))) := by decide
    obtain ⟨htx, hled, _, hcnt⟩ := hrej hcode
    exact ⟨res, h, hrest, htx, hled, hcnt (by decide) (by decide)⟩

/-! ## Frame properties of the serial task -/

/-- The loop of `case '5'` writes only `codeSequence` and `buttonBeingCompared`. -/
theorem newCodeLoop_frame (k : Nat) (r r' : UartResult) (h : newCodeLoop k r = some r') :
    r'.state = { r.state with codeSequence := r'.state.codeSequence,
                              buttonBeingCompared := r'.state.buttonBeingCompared } := by
  induction k generalizing r with
  | zero =>
    simp only [newCodeLoop, Option.some.injEq] at h
    subst h
    rfl
  | succ k ih =>
    obtain ⟨s, tx, rx⟩ := r
    cases rx with
    | nil => simp [newCodeLoop] at h
    | cons c rx =>
      simp only [newCodeLoop] at h
      have h' := ih _ h
      rw [h']
      split_ifs <;> rfl

/-- The loop of `case '4'` writes only `incorrectCode` and `buttonBeingCompared`. -/
theorem enterCodeLoop_frame (k : Nat) (r r' : UartResult) (h : enterCodeLoop k r = some r') :
    r'.state = { r.state with incorrectCode := r'.state.incorrectCode,
                              buttonBeingCompared := r'.state.buttonBeingCompared } := by
  induction k generalizing r with
  | zero =>
    simp only [enterCodeLoop, Option.some.injEq] at h
    subst h
    rfl
  | succ k ih =>
    obtain ⟨s, tx, rx⟩ := r
    cases rx with
    | nil => simp [enterCodeLoop] at h
    | cons c rx =>
      rw [enterCodeLoop_step] at h
      have h' := ih _ h
      rw [h']

/-- The loop of `case '5'` returns as soon as `k` bytes arrive, and consumes
exactly those. -/
theorem newCodeLoop_returns (k : Nat) (r : UartResult) (h : k ≤ r.rest.length) :
    ∃ r', newCodeLoop k r = some r' ∧ r'.rest = r.rest.drop k := by
  induction k generalizing r with
  | zero => exact ⟨r, rfl, rfl⟩
  | succ k ih =>
    obtain ⟨s, tx, rx⟩ := r
    cases rx with
    | nil => simp at h
    | cons c rx =>
      simp only [newCodeLoop, List.drop_succ_cons]
      apply ih
      simpa using h

/-- The loop of `case '4'` returns as soon as `k` bytes arrive, and consumes
exactly those. -/
theorem enterCodeLoop_returns (k : Nat) (r : UartResult) (h : k ≤ r.rest.length) :
    ∃ r', enterCodeLoop k r = some r' ∧ r'.rest = r.rest.drop k := by
  induction k generalizing r with
  | zero => exact ⟨r, rfl, rfl⟩
  | succ k ih =>
    obtain ⟨s, tx, rx⟩ := r
    cases rx with
    | nil => simp at h
    | cons c rx =>
      rw [enterCodeLoop_step]
      simp only [List.drop_succ_cons]
      apply ih
      simpa using h

/-- Every command other than `4` leaves all of the state alone except
`codeSequence`, `buttonBeingCompared` (command `5`) and `potentiometerReading`
(command `p`). -/
theorem uartTask_frame_of_ne_enterCode (fmt2f : ℚ → List Char) (s : State) (inp : Inputs)
    (u : UartIn) (res : UartResult) (hu : u.pending ≠ some '4')
    (h : uartTask fmt2f s inp u = some res) :
    res.state = { s with codeSequence := res.state.codeSequence,
                         buttonBeingCompared := res.state.buttonBeingCompared,
                         potentiometerReading := res.state.potentiometerReading } := by
  obtain ⟨pending, later⟩ := u
  cases pending with
  | none =>
    simp only [uartTask, Option.some.injEq] at h
    subst h
    rfl
  | some c =>
    have hc : ¬ c = '4' := fun hc => hu (by rw [hc])
    simp only [uartTask, hc, if_false] at h
    split_ifs at h
    all_goals first
      | (simp only [Option.some.injEq] at h; subst h; rfl)
      | skip
    cases hl : newCodeLoop NUMBER_OF_KEYS
        ⟨{ s with buttonBeingCompared := 0 }, newCodePrompt [], later⟩ with
    | none => rw [hl] at h; simp at h
    | some r =>
      rw [hl] at h
      simp only [Option.some.injEq] at h
      subst h
      have hf := newCodeLoop_frame _ _ _ hl
      have hp : r.state.potentiometerReading = s.potentiometerReading := by rw [hf]
      show r.state = _
      rw [hp]
      exact hf

/-- The serial task returns when nothing is waiting, on every command other
than `4` and `5`, and on `4` and `5` as soon as four more bytes arrive. -/
theorem uartTask_returns (fmt2f : ℚ → List Char) (s : State) (inp : Inputs) (u : UartIn)
    (h : (u.pending ≠ some '4' ∧ u.pending ≠ some '5') ∨ 4 ≤ u.later.length) :
    ∃ res, uartTask fmt2f s inp u = some res := by
  obtain ⟨pending, later⟩ := u
  cases pending with
  | none => exact ⟨_, rfl⟩
  | some c =>
    simp only [uartTask]
    split_ifs
    all_goals first
      | exact ⟨_, rfl⟩
      | skip
    · rename_i h4
      have hlen : 4 ≤ later.length := by
        rcases h with h | h
        · exact absurd (by rw [h4]) h.1
        · exact h
      obtain ⟨r', hr, _⟩ := enterCodeLoop_returns NUMBER_OF_KEYS
        ⟨{ s with incorrectCode := false, buttonBeingCompared := 0 }, enterCodePrompt [], later⟩ hlen
      rw [hr]
      simp only
      split_ifs <;> exact ⟨_, rfl⟩
    · rename_i h5
      have hlen : 4 ≤ later.length := by
        rcases h with h | h
        · exact absurd (by rw [h5]) h.2
        · exact h
      obtain ⟨r', hr, _⟩ := newCodeLoop_returns NUMBER_OF_KEYS
        ⟨{ s with buttonBeingCompared := 0 }, newCodePrompt [], later⟩ hlen
      rw [hr]
      exact ⟨_, rfl⟩

/-! ## Disarm attempts and the failure counter -/

/-- The button path evaluates an attempt exactly when, on entry, fewer than 5
failures are counted, `enterButton` is pressed, `incorrectCodeLed` is OFF and
the alarm is on; the result of the attempt is the value of `areEqual()` on the
buttons read. -/
theorem buttonAttempt_eq_some_iff (s : State) (inp : Inputs) (b : Bool) :
    buttonAttempt s inp = some b ↔
      s.numberOfIncorrectCodes < 5 ∧ inp.enterButton = true ∧ s.incorrectCodeLed = false ∧
        s.alarmState = true ∧ areEqual (readButtons s inp) = b := by
  unfold buttonAttempt
  by_cases hn : s.numberOfIncorrectCodes < 5
  · cases he : inp.enterButton <;> cases hl : s.incorrectCodeLed <;> cases ha : s.alarmState <;>
      simp [hn, he, hl, ha]
  · simp [hn]

/-- What `alarmDeactivationUpdate` does when it evaluates an attempt, and what
it leaves alone when it does not. -/
theorem alarmDeactivationUpdate_of_buttonAttempt (s : State) (inp : Inputs) :
    (buttonAttempt s inp = some true →
      alarmDeactivationUpdate s inp =
        { (readButtons s inp) with alarmState := false, numberOfIncorrectCodes := 0 }) ∧
    (buttonAttempt s inp = some false →
      alarmDeactivationUpdate s inp =
        { (readButtons s inp) with incorrectCodeLed := true,
                                   numberOfIncorrectCodes := wrapInt (s.numberOfIncorrectCodes + 1) }) ∧
    (buttonAttempt s inp = none →
      alarmDeactivationUpdate s inp =
        { s with incorrectCodeLed := (alarmDeactivationUpdate s inp).incorrectCodeLed,
                 systemBlockedLed := (alarmDeactivationUpdate s inp).systemBlockedLed }) := by
  refine ⟨fun h => ?_, fun h => ?_, fun h => ?_⟩
  · obtain ⟨hn, he, hl, ha, hb⟩ := (buttonAttempt_eq_some_iff s inp true).mp h
    simp [alarmDeactivationUpdate, hn, he, hl, ha, hb]
  · obtain ⟨hn, he, hl, ha, hb⟩ := (buttonAttempt_eq_some_iff s inp false).mp h
    simp [alarmDeactivationUpdate, hn, he, hl, ha, hb]
    rfl
  · unfold buttonAttempt at h
    unfold alarmDeactivationUpdate
    by_cases hn : s.numberOfIncorrectCodes < 5
    · simp only [hn, if_true] at h ⊢
      split_ifs at h ⊢ <;> rfl
    · simp only [hn, if_false]

/-- What `uartTask` does on command `4` when it returns: the attempt it
evaluates has a result, and the state is updated by the matching branch. -/
theorem uartTask_of_serialAttempt (fmt2f : ℚ → List Char) (s : State) (inp : Inputs)
    (u : UartIn) (res : UartResult) (hu : u.pending = some '4')
    (h : uartTask fmt2f s inp u = some res) :
    (serialAttempt s u = some true ∧
      res.state = { s with incorrectCode := false,
                           buttonBeingCompared := res.state.buttonBeingCompared,
                           alarmState := false, incorrectCodeLed := false,
                           numberOfIncorrectCodes := 0 }) ∨
    (serialAttempt s u = some false ∧
      res.state = { s with incorrectCode := true,
                           buttonBeingCompared := res.state.buttonBeingCompared,
                           incorrectCodeLed := true,
                           numberOfIncorrectCodes := wrapInt (s.numberOfIncorrectCodes + 1) }) := by
  obtain ⟨pending, later⟩ := u
  simp only at hu
  subst hu
  have h41 : ¬ ('4' = '1') := by decide
  have h42 : ¬ ('4' = '2') := by decide
  have h43 : ¬ ('4' = '3') := by decide
  simp only [uartTask, h41, h42, h43, if_false, if_true] at h
  simp only [serialAttempt, if_true]
  cases hl : enterCodeLoop NUMBER_OF_KEYS
      ⟨{ s with incorrectCode := false, buttonBeingCompared := 0 }, enterCodePrompt [], later⟩ with
  | none => rw [hl] at h; simp at h
  | some r =>
    rw [hl] at h
    have hf := enterCodeLoop_frame _ _ _ hl
    simp only at h
    by_cases hi : r.state.incorrectCode = false
    · rw [if_pos hi] at h
      simp only [Option.some.injEq] at h
      subst h
      left
      refine ⟨by simp [hi], ?_⟩
      show { r.state with alarmState := false, incorrectCodeLed := false,
                          numberOfIncorrectCodes := 0 } = _
      rw [hf, hi]
    · rw [if_neg hi] at h
      simp only [Option.some.injEq] at h
      subst h
      right
      have hi' : r.state.incorrectCode = true := by simpa using hi
      refine ⟨by simp [hi'], ?_⟩
      show { r.state with incorrectCodeLed := true,
                          numberOfIncorrectCodes := wrapInt (r.state.numberOfIncorrectCodes + 1) } = _
      rw [hf, hi']

/-- Commands other than `4` evaluate no attempt. -/
theorem serialAttempt_eq_none_of_ne (s : State) (u : UartIn) (hu : u.pending ≠ some '4') :
    serialAttempt s u = none := by
  simp [serialAttempt, hu]

/-- The result of the attempt evaluated on command `4` with the bytes
`r0 r1 r2 r3`: accepted exactly when each byte is the stored digit. -/
theorem serialAttempt_eq (s : State) (r0 r1 r2 r3 : Char) (rest : List Char) :
    serialAttempt s ⟨some '4', r0 :: r1 :: r2 :: r3 :: rest⟩ = some
      ((decide (r0 = '1' ∧ s.codeSequence 0 = 1) || decide (r0 = '0' ∧ s.codeSequence 0 = 0)) &&
       (decide (r1 = '1' ∧ s.codeSequence 1 = 1) || decide (r1 = '0' ∧ s.codeSequence 1 = 0)) &&
       (decide (r2 = '1' ∧ s.codeSequence 2 = 1) || decide (r2 = '0' ∧ s.codeSequence 2 = 0)) &&
       (decide (r3 = '1' ∧ s.codeSequence 3 = 1) || decide (r3 = '0' ∧ s.codeSequence 3 = 0))) := by
  have hz : ∀ r : UartResult, enterCodeLoop 0 r = some r := fun _ => rfl
  simp only [serialAttempt, if_true, NUMBER_OF_KEYS, enterCodeLoop_step, hz, Option.map_some',
    Nat.zero_add, Nat.reduceAdd, Bool.false_or]
  generalize (decide (r0 = '1' ∧ s.codeSequence 0 = 1) || decide (r0 = '0' ∧ s.codeSequence 0 = 0)) = m0
  generalize (decide (r1 = '1' ∧ s.codeSequence 1 = 1) || decide (r1 = '0' ∧ s.codeSequence 1 = 0)) = m1
  generalize (decide (r2 = '1' ∧ s.codeSequence 2 = 1) || decide (r2 = '0' ∧ s.codeSequence 2 = 0)) = m2
  generalize (decide (r3 = '1' ∧ s.codeSequence 3 = 1) || decide (r3 = '0' ∧ s.codeSequence 3 = 0)) = m3
  cases m0 <;> cases m1 <;> cases m2 <;> cases m3 <;> rfl

/-- Sampling the temperature never touches the failure counter, the code, the
two code LEDs, the alarm state, the cause flags or the blink timer. -/
theorem lm35Update_frame (s : State) (inp : Inputs) :
    (lm35Update s inp).numberOfIncorrectCodes = s.numberOfIncorrectCodes ∧
    (lm35Update s inp).codeSequence = s.codeSequence ∧
    (lm35Update s inp).incorrectCodeLed = s.incorrectCodeLed ∧
    (lm35Update s inp).systemBlockedLed = s.systemBlockedLed ∧
    (lm35Update s inp).alarmState = s.alarmState ∧
    (lm35Update s inp).gasDetectorState = s.gasDetectorState ∧
    (lm35Update s inp).overTempDetectorState = s.overTempDetectorState ∧
    (lm35Update s inp).accumulatedTimeAlarm = s.accumulatedTimeAlarm ∧
    (lm35Update s inp).alarmLed = s.alarmLed := by
  unfold lm35Update
  refine ⟨?_, ?_, ?_, ?_, ?_, ?_, ?_, ?_, ?_⟩ <;> (dsimp only; split_ifs <;> rfl)

/-- The trigger checks never touch the failure counter, the code, the LEDs or
the blink timer. -/
theorem triggerChecks_frame (s : State) (inp : Inputs) :
    (triggerChecks s inp).numberOfIncorrectCodes = s.numberOfIncorrectCodes ∧
    (triggerChecks s inp).codeSequence = s.codeSequence ∧
    (triggerChecks s inp).incorrectCodeLed = s.incorrectCodeLed ∧
    (triggerChecks s inp).systemBlockedLed = s.systemBlockedLed ∧
    (triggerChecks s inp).accumulatedTimeAlarm = s.accumulatedTimeAlarm ∧
    (triggerChecks s inp).alarmLed = s.alarmLed := by
  unfold triggerChecks
  refine ⟨?_, ?_, ?_, ?_, ?_, ?_⟩ <;> (dsimp only; split_ifs <;> rfl)

/-- The siren, timer and LED part of `alarmActivationUpdate` never touches the
failure counter, the code, the two code LEDs or the alarm state. -/
theorem alarmOutputs_frame (s : State) :
    (alarmOutputs s).numberOfIncorrectCodes = s.numberOfIncorrectCodes ∧
    (alarmOutputs s).codeSequence = s.codeSequence ∧
    (alarmOutputs s).incorrectCodeLed = s.incorrectCodeLed ∧
    (alarmOutputs s).systemBlockedLed = s.systemBlockedLed ∧
    (alarmOutputs s).alarmState = s.alarmState := by
  unfold alarmOutputs alarmLedBlink
  refine ⟨?_, ?_, ?_, ?_, ?_⟩ <;> (dsimp only; split_ifs <;> rfl)

/-- The function `alarmActivationUpdate` never touches the failure counter, the
code, or the two code LEDs. -/
theorem alarmActivationUpdate_frame (s : State) (inp : Inputs) :
    (alarmActivationUpdate s inp).numberOfIncorrectCodes = s.numberOfIncorrectCodes ∧
    (alarmActivationUpdate s inp).codeSequence = s.codeSequence ∧
    (alarmActivationUpdate s inp).incorrectCodeLed = s.incorrectCodeLed ∧
    (alarmActivationUpdate s inp).systemBlockedLed = s.systemBlockedLed := by
  unfold alarmActivationUpdate
  obtain ⟨a1, a2, a3, a4, _⟩ := alarmOutputs_frame (triggerChecks (lm35Update s inp) inp)
  obtain ⟨b1, b2, b3, b4, _⟩ := triggerChecks_frame (lm35Update s inp) inp
  obtain ⟨c1, c2, c3, c4, _⟩ := lm35Update_frame s inp
  exact ⟨by rw [a1, b1, c1], by rw [a2, b2, c2], by rw [a3, b3, c3], by rw [a4, b4, c4]⟩

/-- C3. The failure counter `numberOfIncorrectCodes`, from any prior value
`n`.  Button path: when `alarmDeactivationUpdate` evaluates an attempt (fewer
than 5 failures, `enterButton` pressed, `incorrectCodeLed` OFF, alarm on), a
rejected one (`areEqual()` false) leaves `n + 1` and an accepted one leaves 0;
when it evaluates none the counter stays `n`.  Serial path: command `4` with
four bytes returns, leaving 0 when all four match the stored code and `n + 1`
otherwise; every other command leaves `n`.  `alarmActivationUpdate` leaves
`n`.  (`n + 1` is the `int` increment, so `n` ranges over the `int` values
below `INT_MAX`.) -/
theorem numberOfIncorrectCodes_update (fmt2f : ℚ → List Char) (s : State) (inp : Inputs) :
    (s.numberOfIncorrectCodes < 5 ∧ inp.enterButton = true ∧ s.incorrectCodeLed = false ∧
        s.alarmState = true ∧ areEqual (readButtons s inp) = false →
      INT_MIN ≤ s.numberOfIncorrectCodes →
      (alarmDeactivationUpdate s inp).numberOfIncorrectCodes = s.numberOfIncorrectCodes + 1) ∧
    (s.numberOfIncorrectCodes < 5 ∧ inp.enterButton = true ∧ s.incorrectCodeLed = false ∧
        s.alarmState = true ∧ areEqual (readButtons s inp) = true →
      (alarmDeactivationUpdate s inp).numberOfIncorrectCodes = 0) ∧
    (¬ (s.numberOfIncorrectCodes < 5 ∧ inp.enterButton = true ∧ s.incorrectCodeLed = false ∧
        s.alarmState = true) →
      (alarmDeactivationUpdate s inp).numberOfIncorrectCodes = s.numberOfIncorrectCodes) ∧
    (∀ (r0 r1 r2 r3 : Char) (rest : List Char),
      ∃ res, uartTask fmt2f s inp ⟨some '4', r0 :: r1 :: r2 :: r3 :: rest⟩ = some res ∧
        ((((r0 = '1' ∧ s.codeSequence 0 = 1) ∨ (r0 = '0' ∧ s.codeSequence 0 = 0)) ∧
          ((r1 = '1' ∧ s.codeSequence 1 = 1) ∨ (r1 = '0' ∧ s.codeSequence 1 = 0)) ∧
          ((r2 = '1' ∧ s.codeSequence 2 = 1) ∨ (r2 = '0' ∧ s.codeSequence 2 = 0)) ∧
          ((r3 = '1' ∧ s.codeSequence 3 = 1) ∨ (r3 = '0' ∧ s.codeSequence 3 = 0))) →
            res.state.numberOfIncorrectCodes = 0) ∧
        (¬ (((r0 = '1' ∧ s.codeSequence 0 = 1) ∨ (r0 = '0' ∧ s.codeSequence 0 = 0)) ∧
          ((r1 = '1' ∧ s.codeSequence 1 = 1) ∨ (r1 = '0' ∧ s.codeSequence 1 = 0)) ∧
          ((r2 = '1' ∧ s.codeSequence 2 = 1) ∨ (r2 = '0' ∧ s.codeSequence 2 = 0)) ∧
          ((r3 = '1' ∧ s.codeSequence 3 = 1) ∨ (r3 = '0' ∧ s.codeSequence 3 = 0))) →
            INT_MIN ≤ s.numberOfIncorrectCodes → s.numberOfIncorrectCodes < INT_MAX →
            res.state.numberOfIncorrectCodes = s.numberOfIncorrectCodes + 1)) ∧
    (∀ (u : UartIn) (res : UartResult), u.pending ≠ some '4' →
      uartTask fmt2f s inp u = some res →
      res.state.numberOfIncorrectCodes = s.numberOfIncorrectCodes) ∧
    (∀ (u : UartIn), u.pending ≠ some '4' → (u.pending = some '5' → 4 ≤ u.later.length) →
      ∃ res, uartTask fmt2f s inp u = some res) ∧
    (alarmActivationUpdate s inp).numberOfIncorrectCodes = s.numberOfIncorrectCodes := by
  obtain ⟨hacc, hrej, hnone⟩ := alarmDeactivationUpdate_of_buttonAttempt s inp
  refine ⟨?_, ?_, ?_, ?_, ?_, ?_, (alarmActivationUpdate_frame s inp).1⟩
  · intro h hmin
    rw [hrej ((buttonAttempt_eq_some_iff s inp false).mpr h)]
    exact wrapInt_of_inRange _ (by unfold INT_MIN at *; omega) (by unfold INT_MAX; omega)
  · intro h
    rw [hacc ((buttonAttempt_eq_some_iff s inp true).mpr h)]
  · intro h
    have hb : buttonAttempt s inp = none := by
      cases hb : buttonAttempt s inp with
      | none => rfl
      | some b =>
        obtain ⟨h1, h2, h3, h4, _⟩ := (buttonAttempt_eq_some_iff s inp b).mp hb
        exact absurd ⟨h1, h2, h3, h4⟩ h
    rw [hnone hb]
  · intro r0 r1 r2 r3 rest
    obtain ⟨res, hres, _, hy, hn⟩ := uartTask_enterCode_cases fmt2f s inp r0 r1 r2 r3 rest
    exact ⟨res, hres, fun h => (hy h).2.2.2, fun h => (hn h).2.2.2⟩
  · intro u res hu hres
    rw [uartTask_frame_of_ne_enterCode fmt2f s inp u res hu hres]
  · intro u hu h5
    apply uartTask_returns
    by_cases h : u.pending = some '5'
    · exact Or.inr (h5 h)
    · exact Or.inl ⟨hu, h⟩

/-- C3 on concrete runs from the state `gasAlarmState` (alarm raised by the gas
sensor, counter 0): pressing `enterButton` with only button A held is a
rejected attempt and leaves the counter at 1; pressing it with A and B held
(the stored code) is accepted and leaves 0. -/
theorem numberOfIncorrectCodes_update_witness :
    (alarmDeactivationUpdate gasAlarmState (enterInputs true false false false)).numberOfIncorrectCodes = 1 ∧
    (alarmDeactivationUpdate gasAlarmState (enterInputs true true false false)).numberOfIncorrectCodes = 0 := by
  obtain ⟨hrej, _, _⟩ :=
    numberOfIncorrectCodes_update (fun _ => []) gasAlarmState (enterInputs true false false false)
  obtain ⟨_, hacc, _⟩ :=
    numberOfIncorrectCodes_update (fun _ => []) gasAlarmState (enterInputs true true false false)
  exact ⟨hrej (by decide) (by decide), hacc (by decide)⟩

/-! ## The lock indicator -/

/-- Nothing but `alarmDeactivationUpdate` writes `systemBlockedLed`, and it only
ever writes ON: no call turns the indicator off. -/
theorem Op.apply_systemBlockedLed (fmt2f : ℚ → List Char) (s s' : State) (op : Op)
    (hs : s.systemBlockedLed = true) (h : op.apply fmt2f s = some s') :
    s'.systemBlockedLed = true := by
  cases op with
  | activation inp =>
    simp only [Op.apply, Option.some.injEq] at h
    subst h
    rw [(alarmActivationUpdate_frame s inp).2.2.2, hs]
  | deactivation inp =>
    simp only [Op.apply, Option.some.injEq] at h
    subst h
    unfold alarmDeactivationUpdate
    dsimp only
    split_ifs <;> first | rfl | exact hs
  | uart inp u =>
    simp only [Op.apply, Option.map_eq_some'] at h
    obtain ⟨res, hres, rfl⟩ := h
    by_cases hu : u.pending = some '4'
    · rcases uartTask_of_serialAttempt fmt2f s inp u res hu hres with ⟨_, hst⟩ | ⟨_, hst⟩ <;>
        (rw [hst]; exact hs)
    · rw [uartTask_frame_of_ne_enterCode fmt2f s inp u res hu hres]
      exact hs

/-- The failure counter after a call, by the attempt the call evaluates. -/
theorem Op.apply_numberOfIncorrectCodes (fmt2f : ℚ → List Char) (s s' : State) (op : Op)
    (h : op.apply fmt2f s = some s') :
    (op.outcome s = some true → s'.numberOfIncorrectCodes = 0) ∧
    (op.outcome s = some false →
      s'.numberOfIncorrectCodes = wrapInt (s.numberOfIncorrectCodes + 1)) ∧
    (op.outcome s = none → s'.numberOfIncorrectCodes = s.numberOfIncorrectCodes) := by
  cases op with
  | activation inp =>
    simp only [Op.apply, Option.some.injEq] at h
    subst h
    simp [Op.outcome, (alarmActivationUpdate_frame s inp).1]
  | deactivation inp =>
    simp only [Op.apply, Option.some.injEq] at h
    subst h
    obtain ⟨hacc, hrej, hnone⟩ := alarmDeactivationUpdate_of_buttonAttempt s inp
    refine ⟨fun ho => ?_, fun ho => ?_, fun ho => ?_⟩
    · rw [hacc ho]
    · rw [hrej ho]
    · rw [hnone ho]
  | uart inp u =>
    simp only [Op.apply, Option.map_eq_some'] at h
    obtain ⟨res, hres, rfl⟩ := h
    simp only [Op.outcome]
    by_cases hu : u.pending = some '4'
    · rcases uartTask_of_serialAttempt fmt2f s inp u res hu hres with ⟨ho, hst⟩ | ⟨ho, hst⟩
      · refine ⟨fun _ => by rw [hst], fun h' => ?_, fun h' => ?_⟩
        · rw [ho] at h'; cases h'
        · rw [ho] at h'; cases h'
      · refine ⟨fun h' => ?_, fun _ => by rw [hst], fun h' => ?_⟩
        · rw [ho] at h'; cases h'
        · rw [ho] at h'; cases h'
    · have hn := serialAttempt_eq_none_of_ne s u hu
      refine ⟨fun h' => ?_, fun h' => ?_, fun _ => ?_⟩
      · rw [hn] at h'; cases h'
      · rw [hn] at h'; cases h'
      · rw [uartTask_frame_of_ne_enterCode fmt2f s inp u res hu hres]

/-- Along a run without an accepted attempt the failure counter grows by the
number of rejected attempts (as long as that stays in the range of `int`). -/
theorem runOps_numberOfIncorrectCodes (fmt2f : ℚ → List Char) (ops : List Op) :
    ∀ (s s' : State), runOps fmt2f s ops = some s' →
      countOutcome fmt2f true s ops = 0 →
      0 ≤ s.numberOfIncorrectCodes →
      s.numberOfIncorrectCodes + (countOutcome fmt2f false s ops : Int) ≤ INT_MAX →
      s'.numberOfIncorrectCodes = s.numberOfIncorrectCodes + (countOutcome fmt2f false s ops : Int) := by
  induction ops with
  | nil =>
    intro s s' h _ _ _
    simp only [runOps, Option.some.injEq] at h
    subst h
    simp [countOutcome]
  | cons op ops ih =>
    intro s s' h hacc h0 hmax
    simp only [runOps] at h
    cases hop : op.apply fmt2f s with
    | none => rw [hop] at h; cases h
    | some s1 =>
      rw [hop] at h
      simp only at h
      simp only [countOutcome, hop] at hacc hmax ⊢
      obtain ⟨_, hrej, hnone⟩ := Op.apply_numberOfIncorrectCodes fmt2f s s1 op hop
      have hnot : op.outcome s ≠ some true := by
        intro ht
        rw [if_pos ht] at hacc
        omega
      have hacc' : countOutcome fmt2f true s1 ops = 0 := by omega
      cases ho : op.outcome s with
      | none =>
        have h1 := hnone ho
        simp only [ho, reduceCtorEq, if_false, Nat.zero_add] at hmax ⊢
        rw [ih s1 s' h hacc' (by omega) (by omega), h1]
      | some b =>
        cases b with
        | true => exact absurd ho hnot
        | false =>
          simp only [ho, if_true, Nat.cast_add, Nat.cast_one] at hmax ⊢
          have h1 : s1.numberOfIncorrectCodes = s.numberOfIncorrectCodes + 1 := by
            rw [hrej ho]
            apply wrapInt_of_inRange
            · unfold INT_MIN; omega
            · omega
          rw [ih s1 s' h hacc' (by omega) (by omega), h1]
          omega

/-- A run keeps `systemBlockedLed` ON once it is ON. -/
theorem runOps_systemBlockedLed (fmt2f : ℚ → List Char) (ops : List Op) :
    ∀ (s s' : State), s.systemBlockedLed = true → runOps fmt2f s ops = some s' →
      s'.systemBlockedLed = true := by
  induction ops with
  | nil =>
    intro s s' hs h
    simp only [runOps, Option.some.injEq] at h
    subst h
    exact hs
  | cons op ops ih =>
    intro s s' hs h
    simp only [runOps] at h
    cases hop : op.apply fmt2f s with
    | none => rw [hop] at h; cases h
    | some s1 =>
      rw [hop] at h
      exact ih s1 s' (Op.apply_systemBlockedLed fmt2f s s1 op hs hop) h

/-- C4. The lock indicator.  (1) Whenever `numberOfIncorrectCodes` is 5 or
more, `alarmDeactivationUpdate` leaves `systemBlockedLed` ON.  (2) After any
run of calls that starts with the counter at 0 (such as the initial state) and
contains `k >= 5` rejected attempts and no accepted one, the next
`alarmDeactivationUpdate` leaves `systemBlockedLed` ON; this covers 5 rejected
attempts and also a 6th one.  (3) No call of `alarmActivationUpdate`,
`alarmDeactivationUpdate` or `uartTask`, with any input, turns
`systemBlockedLed` from ON to OFF, hence neither does any run of calls, a
further rejected attempt included. -/
theorem systemBlockedLed_sticky (fmt2f : ℚ → List Char) :
    (∀ (s : State) (inp : Inputs), 5 ≤ s.numberOfIncorrectCodes →
      (alarmDeactivationUpdate s inp).systemBlockedLed = true) ∧
    (∀ (s0 s : State) (ops : List Op) (k : Nat) (inp : Inputs),
      s0.numberOfIncorrectCodes = 0 →
      runOps fmt2f s0 ops = some s →
      countOutcome fmt2f true s0 ops = 0 →
      countOutcome fmt2f false s0 ops = k →
      5 ≤ k → (k : Int) ≤ INT_MAX →
      (alarmDeactivationUpdate s inp).systemBlockedLed = true) ∧
    (∀ (s s' : State) (op : Op), s.systemBlockedLed = true → op.apply fmt2f s = some s' →
      s'.systemBlockedLed = true) ∧
    (∀ (s s' : State) (ops : List Op), s.systemBlockedLed = true →
      runOps fmt2f s ops = some s' → s'.systemBlockedLed = true) := by
  have h1 : ∀ (s : State) (inp : Inputs), 5 ≤ s.numberOfIncorrectCodes →
      (alarmDeactivationUpdate s inp).systemBlockedLed = true := by
    intro s inp h5
    have hn : ¬ s.numberOfIncorrectCodes < 5 := by omega
    simp only [alarmDeactivationUpdate, hn, if_false]
  refine ⟨h1, ?_, fun s s' op hs h => Op.apply_systemBlockedLed fmt2f s s' op hs h,
    fun s s' ops hs h => runOps_systemBlockedLed fmt2f ops s s' hs h⟩
  intro s0 s ops k inp h0 hrun hacc hk h5 hmax
  have hcnt := runOps_numberOfIncorrectCodes fmt2f ops s0 s hrun hacc (by omega)
    (by rw [h0, hk]; omega)
  apply h1
  rw [hcnt, h0, hk]
  omega

/-- C4 on a concrete run from the initial state: five times the serial command
`4` followed by `0 0 0 0` (each a rejected attempt against the stored code
`{1, 1, 0, 0}`); the next `alarmDeactivationUpdate` turns `systemBlockedLed`
ON, and both a further press of `enterButton` with a wrong code and a sixth
rejected serial attempt leave the indicator ON. -/
theorem systemBlockedLed_sticky_witness :
    ∃ s, runOps (fun _ => []) initialState (List.replicate 5 rejectedSerialAttempt) = some s ∧
      initialState.systemBlockedLed = false ∧
      (alarmDeactivationUpdate s quietInputs).systemBlockedLed = true ∧
      (alarmDeactivationUpdate (alarmDeactivationUpdate s quietInputs)
        (enterInputs true false false false)).systemBlockedLed = true ∧
      ∃ s', rejectedSerialAttempt.apply (fun _ => []) (alarmDeactivationUpdate s quietInputs) = some s' ∧
        s'.systemBlockedLed = true := by
  have hret : ∃ s, runOps (fun _ => []) initialState (List.replicate 5 rejectedSerialAttempt) = some s :=
    ⟨_, rfl⟩
  obtain ⟨s, hs⟩ := hret
  obtain ⟨_, h2, h3, _⟩ := systemBlockedLed_sticky (fun _ => [])
  have hon : (alarmDeactivationUpdate s quietInputs).systemBlockedLed = true :=
    h2 initialState s (List.replicate 5 rejectedSerialAttempt) 5 quietInputs rfl hs
      (by decide) (by decide) (by decide) (by decide)
  have hret' : ∃ s', rejectedSerialAttempt.apply (fun _ => [])
      (alarmDeactivationUpdate s quietInputs) = some s' := by
    obtain ⟨res, hres⟩ := uartTask_returns (fun _ => []) (alarmDeactivationUpdate s quietInputs)
      quietInputs ⟨some '4', ['0', '0', '0', '0']⟩ (Or.inr (by decide))
    exact ⟨res.state, by simp [rejectedSerialAttempt, Op.apply, hres]⟩
  obtain ⟨s', hs'⟩ := hret'
  exact ⟨s, hs, rfl, hon, h3 _ _ (.deactivation (enterInputs true false false false)) hon rfl,
    s', hs', h3 _ s' rejectedSerialAttempt hon hs'⟩

/-- The function `alarmDeactivationUpdate` never writes `codeSequence`, the
blink timer or the temperature ring buffer. -/
theorem alarmDeactivationUpdate_frame (s : State) (inp : Inputs) :
    (alarmDeactivationUpdate s inp).codeSequence = s.codeSequence ∧
    (alarmDeactivationUpdate s inp).accumulatedTimeAlarm = s.accumulatedTimeAlarm ∧
    (alarmDeactivationUpdate s inp).lm35ReadingsArray = s.lm35ReadingsArray := by
  unfold alarmDeactivationUpdate
  dsimp only
  refine ⟨?_, ?_, ?_⟩ <;> (split_ifs <;> rfl)

/-! ## The guard of the button path -/

/-- C5. `alarmDeactivationUpdate` changes `alarmState` or
`numberOfIncorrectCodes` only if, on entry, `numberOfIncorrectCodes < 5`,
`enterButton` is pressed, `incorrectCodeLed` is OFF and `alarmState` is ON; in
every other case `alarmState`, `numberOfIncorrectCodes` and `codeSequence` are
unchanged (`codeSequence` is never written by this function); and when
`numberOfIncorrectCodes >= 5` the only effect is `systemBlockedLed = ON`. -/
theorem alarmDeactivationUpdate_guard (s : State) (inp : Inputs) :
    (((alarmDeactivationUpdate s inp).alarmState ≠ s.alarmState ∨
        (alarmDeactivationUpdate s inp).numberOfIncorrectCodes ≠ s.numberOfIncorrectCodes) →
      s.numberOfIncorrectCodes < 5 ∧ inp.enterButton = true ∧ s.incorrectCodeLed = false ∧
        s.alarmState = true) ∧
    (¬ (s.numberOfIncorrectCodes < 5 ∧ inp.enterButton = true ∧ s.incorrectCodeLed = false ∧
        s.alarmState = true) →
      (alarmDeactivationUpdate s inp).alarmState = s.alarmState ∧
      (alarmDeactivationUpdate s inp).numberOfIncorrectCodes = s.numberOfIncorrectCodes ∧
      (alarmDeactivationUpdate s inp).codeSequence = s.codeSequence) ∧
    (alarmDeactivationUpdate s inp).codeSequence = s.codeSequence ∧
    (5 ≤ s.numberOfIncorrectCodes →
      alarmDeactivationUpdate s inp = { s with systemBlockedLed := true }) := by
  have hcode : (alarmDeactivationUpdate s inp).codeSequence = s.codeSequence :=
    (alarmDeactivationUpdate_frame s inp).1
  have hother : ¬ (s.numberOfIncorrectCodes < 5 ∧ inp.enterButton = true ∧
      s.incorrectCodeLed = false ∧ s.alarmState = true) →
      (alarmDeactivationUpdate s inp).alarmState = s.alarmState ∧
      (alarmDeactivationUpdate s inp).numberOfIncorrectCodes = s.numberOfIncorrectCodes ∧
      (alarmDeactivationUpdate s inp).codeSequence = s.codeSequence := by
    intro h
    have hb : buttonAttempt s inp = none := by
      cases hb : buttonAttempt s inp with
      | none => rfl
      | some b =>
        obtain ⟨h1, h2, h3, h4, _⟩ := (buttonAttempt_eq_some_iff s inp b).mp hb
        exact absurd ⟨h1, h2, h3, h4⟩ h
    have hn := (alarmDeactivationUpdate_of_buttonAttempt s inp).2.2 hb
    refine ⟨?_, ?_, hcode⟩
    · rw [hn]
    · rw [hn]
  refine ⟨?_, hother, hcode, ?_⟩
  · intro hch
    by_contra hg
    obtain ⟨ha, hn, _⟩ := hother hg
    rcases hch with h | h
    · exact h ha
    · exact h hn
  · intro h5
    have hn : ¬ s.numberOfIncorrectCodes < 5 := by omega
    simp only [alarmDeactivationUpdate, hn, if_false]

/-- C5 on the concrete state `lockedState` (alarm on, 5 failures counted):
pressing `enterButton` with the stored code held is not evaluated; the only
effect is `systemBlockedLed = ON`, and the alarm stays on. -/
theorem alarmDeactivationUpdate_guard_witness :
    alarmDeactivationUpdate lockedState (enterInputs true true false false) =
      { lockedState with systemBlockedLed := true } ∧
    (alarmDeactivationUpdate lockedState (enterInputs true true false false)).alarmState = true ∧
    (alarmDeactivationUpdate lockedState (enterInputs true true false false)).numberOfIncorrectCodes = 5 := by
  obtain ⟨_, hother, _, hlock⟩ :=
    alarmDeactivationUpdate_guard lockedState (enterInputs true true false false)
  obtain ⟨ha, hn, _⟩ := hother (by decide)
  exact ⟨hlock (by decide), ha, hn⟩

/-! ## Serial command `5`: setting a new code -/

/-- One iteration of the loop of `case '5'` on a received byte `c`: the
current position receives 1, 0 or its own old value. -/
theorem newCodeLoop_step (k : Nat) (s : State) (tx : List Char) (c : Char) (rx : List Char) :
    newCodeLoop (k + 1) ⟨s, tx, c :: rx⟩ =
      newCodeLoop k
        ⟨{ s with
            codeSequence := Function.update s.codeSequence s.buttonBeingCompared
              (if c = '1' then 1 else if c = '0' then 0 else s.codeSequence s.buttonBeingCompared),
            buttonBeingCompared := s.buttonBeingCompared + 1 },
         tx ++ ['*'], rx⟩ := by
  have star : uartWrite tx "*" 1 = tx ++ ['*'] := rfl
  simp only [newCodeLoop, star]
  split_ifs
  · rfl
  · rfl
  · rw [Function.update_eq_self]

/-- C6. After the command byte `5` and four further bytes `r0 r1 r2 r3`,
`uartTask` returns, has consumed exactly those four bytes, and for each
position `i` independently `codeSequence[i]` is 1 where `ri` is the character
`1`, 0 where `ri` is the character `0`, and unchanged where `ri` is any other
byte; `alarmState`, `incorrectCodeLed`, `numberOfIncorrectCodes` and
`systemBlockedLed` are unchanged. -/
theorem uartTask_newCode (fmt2f : ℚ → List Char) (s : State) (inp : Inputs)
    (r0 r1 r2 r3 : Char) (rest : List Char) :
    ∃ res, uartTask fmt2f s inp ⟨some '5', r0 :: r1 :: r2 :: r3 :: rest⟩ = some res ∧
      res.rest = rest ∧
      res.state.codeSequence 0 = (if r0 = '1' then 1 else if r0 = '0' then 0 else s.codeSequence 0) ∧
      res.state.codeSequence 1 = (if r1 = '1' then 1 else if r1 = '0' then 0 else s.codeSequence 1) ∧
      res.state.codeSequence 2 = (if r2 = '1' then 1 else if r2 = '0' then 0 else s.codeSequence 2) ∧
      res.state.codeSequence 3 = (if r3 = '1' then 1 else if r3 = '0' then 0 else s.codeSequence 3) ∧
      res.state.alarmState = s.alarmState ∧
      res.state.incorrectCodeLed = s.incorrectCodeLed ∧
      res.state.numberOfIncorrectCodes = s.numberOfIncorrectCodes ∧
      res.state.systemBlockedLed = s.systemBlockedLed := by
  have h51 : ¬ ('5' = '1') := by decide
  have h52 : ¬ ('5' = '2') := by decide
  have h53 : ¬ ('5' = '3') := by decide
  have h54 : ¬ ('5' = '4') := by decide
  have hz : ∀ r : UartResult, newCodeLoop 0 r = some r := fun _ => rfl
  simp only [uartTask, h51, h52, h53, h54, if_false, if_true, NUMBER_OF_KEYS, newCodeLoop_step, hz,
    Nat.zero_add, Nat.reduceAdd]
  refine ⟨_, rfl, rfl, ?_, ?_, ?_, ?_, rfl, rfl, rfl, rfl⟩ <;>
    simp [Function.update_apply]

/-! ## The parts of `alarmActivationUpdate` -/

/-- The summation loop adds the `k` array elements from index `i` on to the
running sum. -/
theorem lm35SumLoop_eq (arr : Nat → ℚ) (k i : Nat) (sum : ℚ) :
    lm35SumLoop arr k i sum = sum + ∑ j in Finset.range k, arr (i + j) := by
  induction k generalizing i sum with
  | zero => simp [lm35SumLoop]
  | succ k ih =>
    rw [lm35SumLoop, ih, Finset.sum_range_succ']
    have : ∀ j, arr (i + 1 + j) = arr (i + (j + 1)) := fun j => by rw [Nat.add_right_comm, Nat.add_assoc]
    simp only [this, Nat.add_zero]
    ring

/-- The summation loop as called by `alarmActivationUpdate`: the sum of the
first `k` array elements. -/
theorem lm35SumLoop_from_zero (arr : Nat → ℚ) (k : Nat) :
    lm35SumLoop arr k 0 0 = ∑ j in Finset.range k, arr j := by
  rw [lm35SumLoop_eq, zero_add]
  apply Finset.sum_congr rfl
  intro j _
  rw [Nat.zero_add]

/-- What `lm35Update` computes: the sample is stored at `lm35SampleIndex`, the
temperature is the scaled mean of the 100 slots, and `overTempDetector` tells
whether it exceeds `OVER_TEMP_LEVEL`. -/
theorem lm35Update_spec (s : State) (inp : Inputs) :
    (lm35Update s inp).lm35ReadingsArray =
      Function.update s.lm35ReadingsArray s.lm35SampleIndex inp.lm35 ∧
    (lm35Update s inp).lm35TempC =
      analogReadingScaledWithTheLM35Formula
        ((∑ j in Finset.range 100,
          Function.update s.lm35ReadingsArray s.lm35SampleIndex inp.lm35 j) / 100) ∧
    (lm35Update s inp).overTempDetector = decide ((lm35Update s inp).lm35TempC > OVER_TEMP_LEVEL) := by
  unfold lm35Update
  dsimp only
  refine ⟨?_, ?_, ?_⟩
  · split_ifs <;> rfl
  · have hsum := lm35SumLoop_from_zero
      (Function.update s.lm35ReadingsArray s.lm35SampleIndex inp.lm35) 100
    split_ifs <;> simp [NUMBER_OF_AVG_SAMPLES, hsum]
  · split_ifs with h1 h2 h2
    · simp only [h2, decide_True]
    · simp only [h2, decide_False]
    · simp only [h2, decide_True]
    · simp only [h2, decide_False]

/-- The three trigger checks as one assignment each: every flag is its old
value or-ed with the conditions that raise it. -/
theorem triggerChecks_spec (s : State) (inp : Inputs) :
    (triggerChecks s inp).alarmState =
      (s.alarmState || !inp.mq2 || s.overTempDetector || inp.alarmTestButton) ∧
    (triggerChecks s inp).gasDetectorState =
      (s.gasDetectorState || !inp.mq2 || inp.alarmTestButton) ∧
    (triggerChecks s inp).overTempDetectorState =
      (s.overTempDetectorState || s.overTempDetector || inp.alarmTestButton) ∧
    (triggerChecks s inp).overTempDetector = s.overTempDetector ∧
    (triggerChecks s inp).lm35TempC = s.lm35TempC := by
  unfold triggerChecks
  cases h1 : inp.mq2 <;> cases h2 : s.overTempDetector <;> cases h3 : inp.alarmTestButton <;>
    simp [h1, h2, h3]

/-- The siren, timer and LED part when the alarm is on: the cause flags are
kept, the siren pin is an output driven low, 10 ms are added to the timer and
the blink control runs on the result. -/
theorem alarmOutputs_of_on (s : State) (h : s.alarmState = true) :
    alarmOutputs s = alarmLedBlink
      { s with accumulatedTimeAlarm := wrapInt (s.accumulatedTimeAlarm + TIME_INCREMENT_MS),
               sirenPinIsOutput := true, sirenPinValue := false } := by
  simp only [alarmOutputs, h, if_true]

/-- The siren, timer and LED part when the alarm is off. -/
theorem alarmOutputs_of_off (s : State) (h : s.alarmState = false) :
    alarmOutputs s = { s with alarmLed := false, gasDetectorState := false,
                              overTempDetectorState := false, sirenPinIsOutput := false } := by
  simp [alarmOutputs, h]

/-- The blink control writes only `accumulatedTimeAlarm` and `alarmLed`. -/
theorem alarmLedBlink_frame (s : State) :
    alarmLedBlink s = { s with accumulatedTimeAlarm := (alarmLedBlink s).accumulatedTimeAlarm,
                               alarmLed := (alarmLedBlink s).alarmLed } := by
  unfold alarmLedBlink
  split_ifs <;> rfl

/-! ## Latching of the alarm state -/

/-- The function `alarmActivationUpdate` never turns the alarm off. -/
theorem alarmActivationUpdate_alarmState_of_on (s : State) (inp : Inputs)
    (h : s.alarmState = true) : (alarmActivationUpdate s inp).alarmState = true := by
  unfold alarmActivationUpdate
  rw [(alarmOutputs_frame _).2.2.2.2, (triggerChecks_spec _ inp).1, (lm35Update_frame s inp).2.2.2.2.1, h]
  rfl

/-- The loop of `case '4'` returns only if `k` bytes arrive. -/
theorem enterCodeLoop_length (k : Nat) (r r' : UartResult) (h : enterCodeLoop k r = some r') :
    k ≤ r.rest.length := by
  induction k generalizing r with
  | zero => exact Nat.zero_le _
  | succ k ih =>
    obtain ⟨s, tx, rx⟩ := r
    cases rx with
    | nil => simp [enterCodeLoop] at h
    | cons c rx =>
      rw [enterCodeLoop_step] at h
      have := ih _ h
      simpa using this

/-- An accepted serial attempt is the command `4` followed by four bytes, each
the digit stored at its position. -/
theorem serialAttempt_eq_some_true (s : State) (u : UartIn) (h : serialAttempt s u = some true) :
    ∃ (r0 r1 r2 r3 : Char) (rest : List Char),
      u = ⟨some '4', r0 :: r1 :: r2 :: r3 :: rest⟩ ∧
      ((r0 = '1' ∧ s.codeSequence 0 = 1) ∨ (r0 = '0' ∧ s.codeSequence 0 = 0)) ∧
      ((r1 = '1' ∧ s.codeSequence 1 = 1) ∨ (r1 = '0' ∧ s.codeSequence 1 = 0)) ∧
      ((r2 = '1' ∧ s.codeSequence 2 = 1) ∨ (r2 = '0' ∧ s.codeSequence 2 = 0)) ∧
      ((r3 = '1' ∧ s.codeSequence 3 = 1) ∨ (r3 = '0' ∧ s.codeSequence 3 = 0)) := by
  obtain ⟨pending, later⟩ := u
  by_cases hu : pending = some '4'
  · subst hu
    have hlen : 4 ≤ later.length := by
      unfold serialAttempt at h
      simp only [if_true, Option.map_eq_some'] at h
      obtain ⟨r, hr, _⟩ := h
      exact enterCodeLoop_length _ _ _ hr
    match later, hlen with
    | r0 :: r1 :: r2 :: r3 :: rest, _ =>
      rw [serialAttempt_eq] at h
      refine ⟨r0, r1, r2, r3, rest, rfl, ?_⟩
      simpa only [Option.some.injEq, Bool.and_eq_true, Bool.or_eq_true, decide_eq_true_eq,
        and_assoc] using h
  · rw [serialAttempt_eq_none_of_ne s ⟨pending, later⟩ hu] at h
    cases h

/-- C7. `alarmState` is latching.  (1) `alarmActivationUpdate` never changes
`alarmState` from ON to OFF.  (2) Over one whole iteration of the main loop
`alarmState` goes from ON to OFF only if a disarm attempt was accepted in that
iteration: either the button path evaluated an attempt (`enterButton` pressed,
`incorrectCodeLed` OFF, fewer than 5 failures) with `areEqual()` true, or the
serial task received command `4` followed by four bytes that each match the
stored code.  (3) `alarmDeactivationUpdate` alone turns the alarm off only on
an accepted button attempt, and no serial command other than `4` changes
`alarmState`. -/
theorem alarmState_latching (fmt2f : ℚ → List Char) (s : State) (inp : Inputs) :
    (s.alarmState = true → (alarmActivationUpdate s inp).alarmState = true) ∧
    (∀ (u : UartIn) (res : UartResult), s.alarmState = true →
      tick fmt2f s inp u = some res → res.state.alarmState = false →
      (s.numberOfIncorrectCodes < 5 ∧ inp.enterButton = true ∧ s.incorrectCodeLed = false ∧
        areEqual (readButtons (alarmActivationUpdate s inp) inp) = true) ∨
      (∃ (r0 r1 r2 r3 : Char) (rest : List Char),
        u = ⟨some '4', r0 :: r1 :: r2 :: r3 :: rest⟩ ∧
        ((r0 = '1' ∧ s.codeSequence 0 = 1) ∨ (r0 = '0' ∧ s.codeSequence 0 = 0)) ∧
        ((r1 = '1' ∧ s.codeSequence 1 = 1) ∨ (r1 = '0' ∧ s.codeSequence 1 = 0)) ∧
        ((r2 = '1' ∧ s.codeSequence 2 = 1) ∨ (r2 = '0' ∧ s.codeSequence 2 = 0)) ∧
        ((r3 = '1' ∧ s.codeSequence 3 = 1) ∨ (r3 = '0' ∧ s.codeSequence 3 = 0)))) ∧
    (s.alarmState = true → (alarmDeactivationUpdate s inp).alarmState = false →
      s.numberOfIncorrectCodes < 5 ∧ inp.enterButton = true ∧ s.incorrectCodeLed = false ∧
        areEqual (readButtons s inp) = true) ∧
    (∀ (u : UartIn) (res : UartResult), u.pending ≠ some '4' →
      uartTask fmt2f s inp u = some res → res.state.alarmState = s.alarmState) := by
  have hbutton : ∀ (s : State), s.alarmState = true →
      (alarmDeactivationUpdate s inp).alarmState = false →
      s.numberOfIncorrectCodes < 5 ∧ inp.enterButton = true ∧ s.incorrectCodeLed = false ∧
        areEqual (readButtons s inp) = true := by
    intro s hon hoff
    obtain ⟨hacc, hrej, hnone⟩ := alarmDeactivationUpdate_of_buttonAttempt s inp
    cases hb : buttonAttempt s inp with
    | none =>
      rw [hnone hb] at hoff
      rw [hon] at hoff
      cases hoff
    | some b =>
      cases b with
      | true =>
        obtain ⟨h1, h2, h3, _, h5⟩ := (buttonAttempt_eq_some_iff s inp true).mp hb
        exact ⟨h1, h2, h3, h5⟩
      | false =>
        rw [hrej hb] at hoff
        have : (readButtons s inp).alarmState = s.alarmState := rfl
        simp only [this, hon] at hoff
        cases hoff
  refine ⟨alarmActivationUpdate_alarmState_of_on s inp, ?_, hbutton s, ?_⟩
  · intro u res hon htick hoff
    unfold tick at htick
    have hon1 := alarmActivationUpdate_alarmState_of_on s inp hon
    obtain ⟨f1, f2, f3, _⟩ := alarmActivationUpdate_frame s inp
    by_cases hd : (alarmDeactivationUpdate (alarmActivationUpdate s inp) inp).alarmState = false
    · left
      obtain ⟨h1, h2, h3, h4⟩ := hbutton _ hon1 hd
      exact ⟨by rw [← f1]; exact h1, h2, by rw [← f3]; exact h3, h4⟩
    · right
      have hd' : (alarmDeactivationUpdate (alarmActivationUpdate s inp) inp).alarmState = true := by
        simpa using hd
      have hcode : (alarmDeactivationUpdate (alarmActivationUpdate s inp) inp).codeSequence
          = s.codeSequence := by
        rw [(alarmDeactivationUpdate_frame _ inp).1, f2]
      by_cases hu : u.pending = some '4'
      · rcases uartTask_of_serialAttempt fmt2f _ inp u res hu htick with ⟨ho, _⟩ | ⟨_, hst⟩
        · have := serialAttempt_eq_some_true _ u ho
          rw [hcode] at this
          exact this
        · rw [hst] at hoff
          rw [hd'] at hoff
          cases hoff
      · rw [uartTask_frame_of_ne_enterCode fmt2f _ inp u res hu htick] at hoff
        rw [hd'] at hoff
        cases hoff
  · intro u res hu hres
    rw [uartTask_frame_of_ne_enterCode fmt2f s inp u res hu hres]

/-- C7 on the concrete state `gasAlarmState` (alarm on): an iteration's
`alarmActivationUpdate` with no trigger present leaves the alarm on, and so
does `alarmDeactivationUpdate` when `enterButton` is pressed with a wrong
code. -/
theorem alarmState_latching_witness :
    (alarmActivationUpdate gasAlarmState quietInputs).alarmState = true ∧
    ((alarmDeactivationUpdate gasAlarmState (enterInputs true false false false)).alarmState = false →
      areEqual (readButtons gasAlarmState (enterInputs true false false false)) = true) := by
  obtain ⟨h1, _, h3, _⟩ := alarmState_latching (fun _ => []) gasAlarmState quietInputs
  obtain ⟨_, _, h3', _⟩ :=
    alarmState_latching (fun _ => []) gasAlarmState (enterInputs true false false false)
  exact ⟨h1 rfl, fun h => (h3' rfl h).2.2.2⟩

/-! ## Triggers -/

/-- C8. After `alarmActivationUpdate`, from any prior state: if the gas sensor
reads detected (`mq2` low) then `gasDetectorState` and `alarmState` are ON; if
the scaled averaged temperature `lm35TempC` is strictly greater than 50 then
`overTempDetectorState` and `alarmState` are ON; if `alarmTestButton` is held
then `gasDetectorState`, `overTempDetectorState` and `alarmState` are all ON.
Each condition alone is sufficient. -/
theorem alarmActivationUpdate_triggers (s : State) (inp : Inputs) :
    (inp.mq2 = false →
      (alarmActivationUpdate s inp).gasDetectorState = true ∧
      (alarmActivationUpdate s inp).alarmState = true) ∧
    ((alarmActivationUpdate s inp).lm35TempC > 50 →
      (alarmActivationUpdate s inp).overTempDetectorState = true ∧
      (alarmActivationUpdate s inp).alarmState = true) ∧
    (inp.alarmTestButton = true →
      (alarmActivationUpdate s inp).gasDetectorState = true ∧
      (alarmActivationUpdate s inp).overTempDetectorState = true ∧
      (alarmActivationUpdate s inp).alarmState = true) := by
  obtain ⟨ta, tg, tov, _, tt⟩ := triggerChecks_spec (lm35Update s inp) inp
  have key : ∀ t : State, t.alarmState = true →
      (alarmOutputs t).alarmState = true ∧
      (alarmOutputs t).gasDetectorState = t.gasDetectorState ∧
      (alarmOutputs t).overTempDetectorState = t.overTempDetectorState ∧
      (alarmOutputs t).lm35TempC = t.lm35TempC := by
    intro t ht
    rw [alarmOutputs_of_on t ht, alarmLedBlink_frame]
    exact ⟨ht, rfl, rfl, rfl⟩
  have htemp : (alarmActivationUpdate s inp).lm35TempC = (lm35Update s inp).lm35TempC := by
    unfold alarmActivationUpdate
    rw [← tt]
    unfold alarmOutputs alarmLedBlink
    dsimp only
    split_ifs <;> rfl
  unfold alarmActivationUpdate at htemp ⊢
  refine ⟨fun hgas => ?_, fun hot => ?_, fun htest => ?_⟩
  · have hon : (triggerChecks (lm35Update s inp) inp).alarmState = true := by
      rw [ta, hgas]; simp
    obtain ⟨k1, k2, _, _⟩ := key _ hon
    refine ⟨?_, k1⟩
    rw [k2, tg, hgas]; simp
  · rw [htemp] at hot
    have hdet : (lm35Update s inp).overTempDetector = true := by
      rw [(lm35Update_spec s inp).2.2]
      exact decide_eq_true hot
    have hon : (triggerChecks (lm35Update s inp) inp).alarmState = true := by
      rw [ta, hdet]; simp
    obtain ⟨k1, _, k3, _⟩ := key _ hon
    refine ⟨?_, k1⟩
    rw [k3, tov, hdet]; simp
  · have hon : (triggerChecks (lm35Update s inp) inp).alarmState = true := by
      rw [ta, htest]; simp
    obtain ⟨k1, k2, k3, _⟩ := key _ hon
    refine ⟨?_, ?_, k1⟩
    · rw [k2, tg, htest]; simp
    · rw [k3, tov, htest]; simp

/-- When every slot of the ring buffer holds `c` and the new sample is `c`
again, the temperature computed by `lm35Update` is `330 * c` and every slot
still holds `c`. -/
theorem lm35Update_of_const (s : State) (inp : Inputs) (c : ℚ)
    (harr : ∀ j, s.lm35ReadingsArray j = c) (hin : inp.lm35 = c) :
    (lm35Update s inp).lm35TempC = 330 * c ∧ ∀ j, (lm35Update s inp).lm35ReadingsArray j = c := by
  obtain ⟨h1, h2, _⟩ := lm35Update_spec s inp
  have hconst : ∀ j, Function.update s.lm35ReadingsArray s.lm35SampleIndex inp.lm35 j = c := by
    intro j
    rw [Function.update_apply]
    split_ifs
    · exact hin
    · exact harr j
  refine ⟨?_, fun j => by rw [h1]; exact hconst j⟩
  rw [h2]
  simp only [hconst, Finset.sum_const, Finset.card_range, analogReadingScaledWithTheLM35Formula]
  norm_num
  ring

/-- C8 on concrete inputs: from the initial state with gas detected the gas
flag and the alarm are ON; from the state `warmState` (every slot of the ring
buffer at 1/2, i.e. 165 degrees) with one more sample of 1/2 the over
temperature flag and the alarm are ON. -/
theorem alarmActivationUpdate_triggers_witness :
    ((alarmActivationUpdate initialState gasInputs).gasDetectorState = true ∧
      (alarmActivationUpdate initialState gasInputs).alarmState = true) ∧
    ((alarmActivationUpdate warmState warmInputs).overTempDetectorState = true ∧
      (alarmActivationUpdate warmState warmInputs).alarmState = true) := by
  obtain ⟨hgas, _, _⟩ := alarmActivationUpdate_triggers initialState gasInputs
  obtain ⟨_, htemp, _⟩ := alarmActivationUpdate_triggers warmState warmInputs
  refine ⟨hgas rfl, htemp ?_⟩
  have h330 : (lm35Update warmState warmInputs).lm35TempC = 330 * (1 / 2) :=
    (lm35Update_of_const warmState warmInputs (1 / 2) (fun _ => rfl) rfl).1
  have hframe : (alarmActivationUpdate warmState warmInputs).lm35TempC
      = (lm35Update warmState warmInputs).lm35TempC := by
    unfold alarmActivationUpdate
    rw [← (triggerChecks_spec (lm35Update warmState warmInputs) warmInputs).2.2.2.2]
    unfold alarmOutputs alarmLedBlink
    dsimp only
    split_ifs <;> rfl
  rw [hframe, h330]
  norm_num

/-! ## Blinking of the alarm LED -/

/-- The siren, timer and LED part when the alarm is on and the timer does not
overflow: the timer grows by 10 ms and is compared with the period selected by
the cause flags. -/
theorem alarmOutputs_blink (t : State) (hon : t.alarmState = true)
    (hmin : INT_MIN ≤ t.accumulatedTimeAlarm) (hmax : t.accumulatedTimeAlarm + 10 ≤ INT_MAX) :
    (t.gasDetectorState = true ∧ t.overTempDetectorState = true →
      (100 ≤ t.accumulatedTimeAlarm + 10 →
        (alarmOutputs t).accumulatedTimeAlarm = 0 ∧ (alarmOutputs t).alarmLed = !t.alarmLed) ∧
      (t.accumulatedTimeAlarm + 10 < 100 →
        (alarmOutputs t).accumulatedTimeAlarm = t.accumulatedTimeAlarm + 10 ∧
        (alarmOutputs t).alarmLed = t.alarmLed)) ∧
    (t.gasDetectorState = true ∧ t.overTempDetectorState = false →
      (1000 ≤ t.accumulatedTimeAlarm + 10 →
        (alarmOutputs t).accumulatedTimeAlarm = 0 ∧ (alarmOutputs t).alarmLed = !t.alarmLed) ∧
      (t.accumulatedTimeAlarm + 10 < 1000 →
        (alarmOutputs t).accumulatedTimeAlarm = t.accumulatedTimeAlarm + 10 ∧
        (alarmOutputs t).alarmLed = t.alarmLed)) ∧
    (t.gasDetectorState = false ∧ t.overTempDetectorState = true →
      (500 ≤ t.accumulatedTimeAlarm + 10 →
        (alarmOutputs t).accumulatedTimeAlarm = 0 ∧ (alarmOutputs t).alarmLed = !t.alarmLed) ∧
      (t.accumulatedTimeAlarm + 10 < 500 →
        (alarmOutputs t).accumulatedTimeAlarm = t.accumulatedTimeAlarm + 10 ∧
        (alarmOutputs t).alarmLed = t.alarmLed)) ∧
    (t.gasDetectorState = false ∧ t.overTempDetectorState = false →
      (alarmOutputs t).accumulatedTimeAlarm = t.accumulatedTimeAlarm + 10 ∧
      (alarmOutputs t).alarmLed = t.alarmLed) := by
  have hw : wrapInt (t.accumulatedTimeAlarm + TIME_INCREMENT_MS) = t.accumulatedTimeAlarm + 10 :=
    wrapInt_of_inRange _ (by unfold INT_MIN TIME_INCREMENT_MS at *; omega)
      (by unfold TIME_INCREMENT_MS; exact hmax)
  rw [alarmOutputs_of_on t hon, hw]
  unfold alarmLedBlink BLINKING_TIME_GAS_AND_OVER_TEMP_ALARM BLINKING_TIME_GAS_ALARM
    BLINKING_TIME_OVER_TEMP_ALARM
  dsimp only
  refine ⟨?_, ?_, ?_, ?_⟩
  · rintro ⟨hg, ho⟩
    simp only [hg, ho, Bool.and_self, if_true]
    constructor
    · intro h
      rw [if_pos (by omega)]
      exact ⟨rfl, rfl⟩
    · intro h
      rw [if_neg (by omega)]
      exact ⟨rfl, rfl⟩
  · rintro ⟨hg, ho⟩
    simp only [hg, ho, Bool.and_false, Bool.false_eq_true, if_false, if_true]
    constructor
    · intro h
      rw [if_pos (by omega)]
      exact ⟨rfl, rfl⟩
    · intro h
      rw [if_neg (by omega)]
      exact ⟨rfl, rfl⟩
  · rintro ⟨hg, ho⟩
    simp only [hg, ho, Bool.false_and, Bool.false_eq_true, if_false, if_true]
    constructor
    · intro h
      rw [if_pos (by omega)]
      exact ⟨rfl, rfl⟩
    · intro h
      rw [if_neg (by omega)]
      exact ⟨rfl, rfl⟩
  · rintro ⟨hg, ho⟩
    simp [hg, ho]

/-- C9. Let `t` be the state after the trigger checks of
`alarmActivationUpdate`, with `alarmState` ON.  The update adds 10 ms to
`accumulatedTimeAlarm`; with both cause flags set the period is 100 ms, with
only `gasDetectorState` 1000 ms, with only `overTempDetectorState` 500 ms.  If
the new accumulated value has reached the period, `alarmLed` is toggled and
`accumulatedTimeAlarm` is reset to 0; otherwise `alarmLed` is unchanged and the
timer keeps the new value (also when no cause flag is set).  The timer of the
prior state is an `int` that does not overflow when 10 is added. -/
theorem alarmActivationUpdate_blink (s : State) (inp : Inputs)
    (hon : (triggerChecks (lm35Update s inp) inp).alarmState = true)
    (hmin : INT_MIN ≤ s.accumulatedTimeAlarm) (hmax : s.accumulatedTimeAlarm + 10 ≤ INT_MAX) :
    ((triggerChecks (lm35Update s inp) inp).gasDetectorState = true ∧
      (triggerChecks (lm35Update s inp) inp).overTempDetectorState = true →
      (100 ≤ s.accumulatedTimeAlarm + 10 →
        (alarmActivationUpdate s inp).accumulatedTimeAlarm = 0 ∧
        (alarmActivationUpdate s inp).alarmLed = !s.alarmLed) ∧
      (s.accumulatedTimeAlarm + 10 < 100 →
        (alarmActivationUpdate s inp).accumulatedTimeAlarm = s.accumulatedTimeAlarm + 10 ∧
        (alarmActivationUpdate s inp).alarmLed = s.alarmLed)) ∧
    ((triggerChecks (lm35Update s inp) inp).gasDetectorState = true ∧
      (triggerChecks (lm35Update s inp) inp).overTempDetectorState = false →
      (1000 ≤ s.accumulatedTimeAlarm + 10 →
        (alarmActivationUpdate s inp).accumulatedTimeAlarm = 0 ∧
        (alarmActivationUpdate s inp).alarmLed = !s.alarmLed) ∧
      (s.accumulatedTimeAlarm + 10 < 1000 →
        (alarmActivationUpdate s inp).accumulatedTimeAlarm = s.accumulatedTimeAlarm + 10 ∧
        (alarmActivationUpdate s inp).alarmLed = s.alarmLed)) ∧
    ((triggerChecks (lm35Update s inp) inp).gasDetectorState = false ∧
      (triggerChecks (lm35Update s inp) inp).overTempDetectorState = true →
      (500 ≤ s.accumulatedTimeAlarm + 10 →
        (alarmActivationUpdate s inp).accumulatedTimeAlarm = 0 ∧
        (alarmActivationUpdate s inp).alarmLed = !s.alarmLed) ∧
      (s.accumulatedTimeAlarm + 10 < 500 →
        (alarmActivationUpdate s inp).accumulatedTimeAlarm = s.accumulatedTimeAlarm + 10 ∧
        (alarmActivationUpdate s inp).alarmLed = s.alarmLed)) ∧
    ((triggerChecks (lm35Update s inp) inp).gasDetectorState = false ∧
      (triggerChecks (lm35Update s inp) inp).overTempDetectorState = false →
      (alarmActivationUpdate s inp).accumulatedTimeAlarm = s.accumulatedTimeAlarm + 10 ∧
      (alarmActivationUpdate s inp).alarmLed = s.alarmLed) := by
  have hacc : (triggerChecks (lm35Update s inp) inp).accumulatedTimeAlarm
      = s.accumulatedTimeAlarm := by
    rw [(triggerChecks_frame _ inp).2.2.2.2.1, (lm35Update_frame s inp).2.2.2.2.2.2.2.1]
  have hled : (triggerChecks (lm35Update s inp) inp).alarmLed = s.alarmLed := by
    rw [(triggerChecks_frame _ inp).2.2.2.2.2, (lm35Update_frame s inp).2.2.2.2.2.2.2.2]
  have h := alarmOutputs_blink (triggerChecks (lm35Update s inp) inp) hon
    (by rw [hacc]; exact hmin) (by rw [hacc]; exact hmax)
  rw [hacc, hled] at h
  exact h

/-- C9 on the concrete state `bothCausesState` (alarm on, both cause flags set,
90 ms accumulated, LED off) with gas still detected: the timer reaches the
100 ms period, so the LED is toggled to ON and the timer is reset to 0. -/
theorem alarmActivationUpdate_blink_witness :
    (alarmActivationUpdate bothCausesState gasInputs).accumulatedTimeAlarm = 0 ∧
    (alarmActivationUpdate bothCausesState gasInputs).alarmLed = true := by
  have hon : (triggerChecks (lm35Update bothCausesState gasInputs) gasInputs).alarmState = true := by
    rw [(triggerChecks_spec _ gasInputs).1, (lm35Update_frame bothCausesState gasInputs).2.2.2.2.1]
    rfl
  have hg : (triggerChecks (lm35Update bothCausesState gasInputs) gasInputs).gasDetectorState
      = true := by
    rw [(triggerChecks_spec _ gasInputs).2.1, (lm35Update_frame bothCausesState gasInputs).2.2.2.2.2.1]
    rfl
  have ho : (triggerChecks (lm35Update bothCausesState gasInputs) gasInputs).overTempDetectorState
      = true := by
    rw [(triggerChecks_spec _ gasInputs).2.2.1,
      (lm35Update_frame bothCausesState gasInputs).2.2.2.2.2.2.1]
    rfl
  obtain ⟨hboth, _, _, _⟩ :=
    alarmActivationUpdate_blink bothCausesState gasInputs hon (by decide) (by decide)
  exact (hboth ⟨hg, ho⟩).1 (by decide)

/-! ## Returning to the armed state -/

/-- With the ring buffer all zero and a sample of 0, `lm35Update` only advances
the ring index: sum, average and temperature are 0 and `overTempDetector` is
OFF. -/
theorem lm35Update_cold (s : State) (inp : Inputs)
    (harr : s.lm35ReadingsArray = fun _ => 0) (hin : inp.lm35 = 0) :
    lm35Update s inp =
      { s with
          lm35SampleIndex :=
            if s.lm35SampleIndex + 1 ≥ NUMBER_OF_AVG_SAMPLES then 0 else s.lm35SampleIndex + 1,
          lm35ReadingsSum := 0, lm35ReadingsAverage := 0, lm35TempC := 0,
          overTempDetector := false } := by
  have hupd : Function.update s.lm35ReadingsArray s.lm35SampleIndex inp.lm35
      = s.lm35ReadingsArray := by
    rw [hin, harr]
    exact Function.update_eq_self s.lm35SampleIndex (fun _ => (0 : ℚ))
  have hsum : lm35SumLoop s.lm35ReadingsArray NUMBER_OF_AVG_SAMPLES 0 0 = 0 := by
    rw [lm35SumLoop_from_zero, harr]
    simp
  have hcold : ¬ ((0 : ℚ) > OVER_TEMP_LEVEL) := by
    unfold OVER_TEMP_LEVEL
    norm_num
  unfold lm35Update
  dsimp only
  rw [hupd]
  split_ifs with h1 h2 h2
  all_goals first
    | (exfalso
       dsimp only at h2
       rw [hsum] at h2
       simp only [zero_div, analogReadingScaledWithTheLM35Formula, zero_mul] at h2
       exact hcold h2)
    | (dsimp only
       rw [hsum]
       simp only [zero_div, analogReadingScaledWithTheLM35Formula, zero_mul])

/-- The first iteration of the main loop when gas is detected and the serial
port delivers the command `4` followed by the stored code `1 1 0 0`: the alarm
is raised by `alarmActivationUpdate` (state `gasAlarmState`, 10 ms on the
timer) and switched off again by `uartTask` (state `disarmedState`). -/
theorem tick_gas_then_code (fmt2f : ℚ → List Char) :
    ∃ tx, tick fmt2f initialState gasInputs ⟨some '4', ['1', '1', '0', '0']⟩ =
      some ⟨disarmedState, tx, []⟩ := by
  have h1 : alarmActivationUpdate initialState gasInputs = gasAlarmState := by
    unfold alarmActivationUpdate
    rw [lm35Update_cold initialState gasInputs rfl rfl]
    rfl
  have h2 : alarmDeactivationUpdate gasAlarmState gasInputs = gasAlarmState := rfl
  unfold tick
  rw [h1, h2, uartTask_enterCode_eq]
  exact ⟨_, rfl⟩

/-- The siren, timer and LED part of `alarmActivationUpdate` when the alarm is
off after the trigger checks: both cause flags and the LED are switched off
and the siren pin becomes an input; the blink timer keeps its value. -/
theorem alarmActivationUpdate_of_off (s : State) (inp : Inputs)
    (hoff : (triggerChecks (lm35Update s inp) inp).alarmState = false) :
    (alarmActivationUpdate s inp).gasDetectorState = false ∧
    (alarmActivationUpdate s inp).overTempDetectorState = false ∧
    (alarmActivationUpdate s inp).alarmLed = false ∧
    (alarmActivationUpdate s inp).sirenPinIsOutput = false ∧
    (alarmActivationUpdate s inp).alarmState = false ∧
    (alarmActivationUpdate s inp).accumulatedTimeAlarm = s.accumulatedTimeAlarm := by
  have hacc : (triggerChecks (lm35Update s inp) inp).accumulatedTimeAlarm
      = s.accumulatedTimeAlarm := by
    rw [(triggerChecks_frame _ inp).2.2.2.2.1, (lm35Update_frame s inp).2.2.2.2.2.2.2.1]
  unfold alarmActivationUpdate
  rw [alarmOutputs_of_off _ hoff]
  exact ⟨rfl, rfl, rfl, rfl, hoff, hacc⟩

/-- With the ring buffer all zero, a sample of 0, no gas and the test button
released, the trigger checks leave the alarm state as it was. -/
theorem triggerChecks_cold (s : State) (inp : Inputs)
    (harr : s.lm35ReadingsArray = fun _ => 0) (hin : inp.lm35 = 0)
    (hgas : inp.mq2 = true) (htest : inp.alarmTestButton = false) :
    (triggerChecks (lm35Update s inp) inp).alarmState = s.alarmState := by
  rw [(triggerChecks_spec _ inp).1, lm35Update_cold s inp harr hin, hgas, htest]
  simp

/-- C10, counterexample.  First iteration from the initial state: gas is
detected (alarm on, 10 ms on the blink timer) and the serial port delivers `4`
and the stored code `1 1 0 0` (alarm off).  In the second iteration no trigger
is present, so `alarmState` is OFF after the trigger checks, and
`alarmActivationUpdate` leaves `accumulatedTimeAlarm` at 10: the timer is not
reset to 0. -/
theorem alarmActivationUpdate_off_timer_counterexample :
    ∃ res, tick (fun _ => []) initialState gasInputs ⟨some '4', ['1', '1', '0', '0']⟩ = some res ∧
      (triggerChecks (lm35Update res.state quietInputs) quietInputs).alarmState = false ∧
      (alarmActivationUpdate res.state quietInputs).accumulatedTimeAlarm = 10 ∧
      ¬ (alarmActivationUpdate res.state quietInputs).accumulatedTimeAlarm = 0 := by
  obtain ⟨tx, htick⟩ := tick_gas_then_code (fun _ => [])
  have hoff : (triggerChecks (lm35Update disarmedState quietInputs) quietInputs).alarmState
      = false := by
    rw [triggerChecks_cold disarmedState quietInputs rfl rfl rfl rfl]
    rfl
  have hacc : (alarmActivationUpdate disarmedState quietInputs).accumulatedTimeAlarm = 10 := by
    rw [(alarmActivationUpdate_of_off disarmedState quietInputs hoff).2.2.2.2.2]
    rfl
  refine ⟨_, htick, hoff, hacc, ?_⟩
  show ¬ (alarmActivationUpdate disarmedState quietInputs).accumulatedTimeAlarm = 0
  rw [hacc]
  decide

/-- C10, as the code has it.  For every state in which `alarmState` is OFF
after the trigger checks of `alarmActivationUpdate`, the update clears both
cause flags (`gasDetectorState`, `overTempDetectorState`), turns `alarmLed`
OFF, releases the siren pin (switches it to input) and leaves `alarmState` OFF;
`accumulatedTimeAlarm` keeps the value it had. -/
theorem alarmActivationUpdate_returns_to_armed (s : State) (inp : Inputs)
    (hoff : (triggerChecks (lm35Update s inp) inp).alarmState = false) :
    (alarmActivationUpdate s inp).gasDetectorState = false ∧
    (alarmActivationUpdate s inp).overTempDetectorState = false ∧
    (alarmActivationUpdate s inp).alarmLed = false ∧
    (alarmActivationUpdate s inp).sirenPinIsOutput = false ∧
    (alarmActivationUpdate s inp).alarmState = false ∧
    (alarmActivationUpdate s inp).accumulatedTimeAlarm = s.accumulatedTimeAlarm :=
  alarmActivationUpdate_of_off s inp hoff

/-- C10 on the concrete state `disarmedState` (the alarm was raised by gas and
switched off by the code, the gas flag is still set and the siren pin is still
an output) in an iteration without trigger: the gas flag is cleared, the LED
is off, the siren pin is an input and the timer still reads 10. -/
theorem alarmActivationUpdate_returns_to_armed_witness :
    disarmedState.gasDetectorState = true ∧ disarmedState.sirenPinIsOutput = true ∧
    (alarmActivationUpdate disarmedState quietInputs).gasDetectorState = false ∧
    (alarmActivationUpdate disarmedState quietInputs).overTempDetectorState = false ∧
    (alarmActivationUpdate disarmedState quietInputs).alarmLed = false ∧
    (alarmActivationUpdate disarmedState quietInputs).sirenPinIsOutput = false ∧
    (alarmActivationUpdate disarmedState quietInputs).alarmState = false ∧
    (alarmActivationUpdate disarmedState quietInputs).accumulatedTimeAlarm = 10 := by
  have hoff : (triggerChecks (lm35Update disarmedState quietInputs) quietInputs).alarmState
      = false := by
    rw [triggerChecks_cold disarmedState quietInputs rfl rfl rfl rfl]
    rfl
  obtain ⟨h1, h2, h3, h4, h5, h6⟩ :=
    alarmActivationUpdate_returns_to_armed disarmedState quietInputs hoff
  exact ⟨rfl, rfl, h1, h2, h3, h4, h5, h6⟩

/-! ## Invariants of runs -/

/-- The function `alarmDeactivationUpdate` writes none of the outputs of
`alarmActivationUpdate` and none of the temperature variables, and it never
turns the alarm on. -/
theorem alarmDeactivationUpdate_keeps (s : State) (inp : Inputs) :
    (alarmDeactivationUpdate s inp).sirenPinIsOutput = s.sirenPinIsOutput ∧
    (alarmDeactivationUpdate s inp).sirenPinValue = s.sirenPinValue ∧
    (alarmDeactivationUpdate s inp).gasDetectorState = s.gasDetectorState ∧
    (alarmDeactivationUpdate s inp).overTempDetectorState = s.overTempDetectorState ∧
    (alarmDeactivationUpdate s inp).alarmLed = s.alarmLed ∧
    (alarmDeactivationUpdate s inp).lm35SampleIndex = s.lm35SampleIndex ∧
    (alarmDeactivationUpdate s inp).lm35ReadingsAverage = s.lm35ReadingsAverage ∧
    ((alarmDeactivationUpdate s inp).alarmState = true → s.alarmState = true) := by
  unfold alarmDeactivationUpdate
  dsimp only
  refine ⟨?_, ?_, ?_, ?_, ?_, ?_, ?_, ?_⟩
  · split_ifs <;> rfl
  · split_ifs <;> rfl
  · split_ifs <;> rfl
  · split_ifs <;> rfl
  · split_ifs <;> rfl
  · split_ifs <;> rfl
  · split_ifs <;> rfl
  · split_ifs with h1 h2 h3 h4 <;> intro h
    all_goals first
      | exact h
      | cases h

/-- Whatever the command, `uartTask` writes only `codeSequence`,
`buttonBeingCompared`, `potentiometerReading`, `incorrectCode`, `alarmState`,
`incorrectCodeLed` and `numberOfIncorrectCodes`, and it never turns the alarm
on. -/
theorem uartTask_keeps (fmt2f : ℚ → List Char) (s : State) (inp : Inputs) (u : UartIn)
    (res : UartResult) (h : uartTask fmt2f s inp u = some res) :
    res.state = { s with codeSequence := res.state.codeSequence,
                         buttonBeingCompared := res.state.buttonBeingCompared,
                         potentiometerReading := res.state.potentiometerReading,
                         incorrectCode := res.state.incorrectCode,
                         alarmState := res.state.alarmState,
                         incorrectCodeLed := res.state.incorrectCodeLed,
                         numberOfIncorrectCodes := res.state.numberOfIncorrectCodes } ∧
    (res.state.alarmState = true → s.alarmState = true) := by
  by_cases hu : u.pending = some '4'
  · rcases uartTask_of_serialAttempt fmt2f s inp u res hu h with ⟨_, hst⟩ | ⟨_, hst⟩
    · constructor
      · rw [hst]
      · intro ha
        rw [hst] at ha
        cases ha
    · constructor
      · rw [hst]
      · intro ha
        rw [hst] at ha
        exact ha
  · have hst := uartTask_frame_of_ne_enterCode fmt2f s inp u res hu h
    constructor
    · rw [hst]
    · intro ha
      rw [hst] at ha
      exact ha

/-- A property of states that every call preserves holds along every sequence
of calls. -/
theorem runOps_preserves (fmt2f : ℚ → List Char) (P : State → Prop)
    (hstep : ∀ (s s' : State) (op : Op), P s → op.apply fmt2f s = some s' → P s')
    (ops : List Op) :
    ∀ (s s' : State), P s → runOps fmt2f s ops = some s' → P s' := by
  induction ops with
  | nil =>
    intro s s' hs h
    simp only [runOps, Option.some.injEq] at h
    subst h
    exact hs
  | cons op ops ih =>
    intro s s' hs h
    simp only [runOps] at h
    cases hop : op.apply fmt2f s with
    | none => rw [hop] at h; cases h
    | some s1 =>
      rw [hop] at h
      exact ih s1 s' (hstep s s1 op hs hop) h

/-- A sequence of iterations of the main loop is the sequence of its calls. -/
theorem runTicks_eq_runOps (fmt2f : ℚ → List Char) (ts : List (Inputs × UartIn)) :
    ∀ (s : State), runTicks fmt2f s ts = runOps fmt2f s (tickOps ts) := by
  induction ts with
  | nil => intro s; rfl
  | cons t ts ih =>
    intro s
    obtain ⟨inp, u⟩ := t
    simp only [runTicks, tickOps, runOps, Op.apply, tick]
    cases hres : uartTask fmt2f (alarmDeactivationUpdate (alarmActivationUpdate s inp) inp) inp u with
    | none => rfl
    | some r =>
      simp only [Option.map_some']
      exact ih r.state

/-- The samples fed by a sequence of iterations are the `lm35` readings of the
iterations. -/
theorem samplesOf_tickOps (ts : List (Inputs × UartIn)) :
    samplesOf (tickOps ts) = ts.map (fun t => t.1.lm35) := by
  induction ts with
  | nil => rfl
  | cons t ts ih =>
    obtain ⟨inp, u⟩ := t
    simp only [samplesOf] at ih
    simp only [tickOps, samplesOf, List.filterMap_cons, Op.sample, List.map_cons, ih]

/-- When `alarmActivationUpdate` leaves the alarm on, it leaves the siren pin
an output driven low. -/
theorem alarmActivationUpdate_siren (s : State) (inp : Inputs)
    (h : (alarmActivationUpdate s inp).alarmState = true) :
    (alarmActivationUpdate s inp).sirenPinIsOutput = true ∧
    (alarmActivationUpdate s inp).sirenPinValue = false := by
  unfold alarmActivationUpdate at h ⊢
  rw [(alarmOutputs_frame _).2.2.2.2] at h
  rw [alarmOutputs_of_on _ h, alarmLedBlink_frame]
  exact ⟨rfl, rfl⟩

/-- Every call preserves: alarm on implies siren pin output and low. -/
theorem Op.apply_siren (fmt2f : ℚ → List Char) (s s' : State) (op : Op)
    (hs : s.alarmState = true → s.sirenPinIsOutput = true ∧ s.sirenPinValue = false)
    (h : op.apply fmt2f s = some s') :
    s'.alarmState = true → s'.sirenPinIsOutput = true ∧ s'.sirenPinValue = false := by
  cases op with
  | activation inp =>
    simp only [Op.apply, Option.some.injEq] at h
    subst h
    exact alarmActivationUpdate_siren s inp
  | deactivation inp =>
    simp only [Op.apply, Option.some.injEq] at h
    subst h
    obtain ⟨k1, k2, _, _, _, _, _, k8⟩ := alarmDeactivationUpdate_keeps s inp
    intro ha
    rw [k1, k2]
    exact hs (k8 ha)
  | uart inp u =>
    simp only [Op.apply, Option.map_eq_some'] at h
    obtain ⟨res, hres, rfl⟩ := h
    obtain ⟨hst, hon⟩ := uartTask_keeps fmt2f s inp u res hres
    intro ha
    rw [hst]
    exact hs (hon ha)

/-- C11. In every state reached from the initial state by calls of the main
loop (in particular after any number of whole iterations), if `alarmState` is
ON then the siren pin is configured as an output and driven LOW.
`alarmActivationUpdate` drives it low whenever it leaves `alarmState` ON, and
neither `alarmDeactivationUpdate` nor `uartTask` changes the siren pin or
turns `alarmState` ON. -/
theorem siren_driven_while_active (fmt2f : ℚ → List Char) :
    (∀ (ops : List Op) (s : State), runOps fmt2f initialState ops = some s →
      s.alarmState = true → s.sirenPinIsOutput = true ∧ s.sirenPinValue = false) ∧
    (∀ (ts : List (Inputs × UartIn)) (s : State), runTicks fmt2f initialState ts = some s →
      s.alarmState = true → s.sirenPinIsOutput = true ∧ s.sirenPinValue = false) ∧
    (∀ (s : State) (inp : Inputs), (alarmActivationUpdate s inp).alarmState = true →
      (alarmActivationUpdate s inp).sirenPinIsOutput = true ∧
      (alarmActivationUpdate s inp).sirenPinValue = false) ∧
    (∀ (s : State) (inp : Inputs),
      (alarmDeactivationUpdate s inp).sirenPinIsOutput = s.sirenPinIsOutput ∧
      (alarmDeactivationUpdate s inp).sirenPinValue = s.sirenPinValue ∧
      ((alarmDeactivationUpdate s inp).alarmState = true → s.alarmState = true)) ∧
    (∀ (s : State) (inp : Inputs) (u : UartIn) (res : UartResult),
      uartTask fmt2f s inp u = some res →
      res.state.sirenPinIsOutput = s.sirenPinIsOutput ∧
      res.state.sirenPinValue = s.sirenPinValue ∧
      (res.state.alarmState = true → s.alarmState = true)) := by
  have hinit : initialState.alarmState = true →
      initialState.sirenPinIsOutput = true ∧ initialState.sirenPinValue = false := by
    intro h
    cases h
  have hops : ∀ (ops : List Op) (s : State), runOps fmt2f initialState ops = some s →
      s.alarmState = true → s.sirenPinIsOutput = true ∧ s.sirenPinValue = false :=
    fun ops s h =>
      runOps_preserves fmt2f
        (fun s => s.alarmState = true → s.sirenPinIsOutput = true ∧ s.sirenPinValue = false)
        (Op.apply_siren fmt2f) ops initialState s hinit h
  refine ⟨hops, ?_, alarmActivationUpdate_siren, ?_, ?_⟩
  · intro ts s h
    rw [runTicks_eq_runOps] at h
    exact hops _ s h
  · intro s inp
    obtain ⟨k1, k2, _, _, _, _, _, k8⟩ := alarmDeactivationUpdate_keeps s inp
    exact ⟨k1, k2, k8⟩
  · intro s inp u res hres
    obtain ⟨hst, hon⟩ := uartTask_keeps fmt2f s inp u res hres
    refine ⟨?_, ?_, hon⟩
    · rw [hst]
    · rw [hst]

/-! ## The temperature ring buffer -/

/-- One write into the ring buffer.  If the slots hold the last (at most 100)
samples of `l`, each sample `k` in slot `k mod 100`, and the slots never
written hold 0, then after writing `x` at slot `l.length mod 100` the same is
true of `l ++ [x]`; and the sum of the 100 slots stays the sum of the last (at
most 100) samples. -/
theorem ring_write (arr : Nat → ℚ) (l : List ℚ) (x : ℚ)
    (h2 : ∀ k, k < l.length → l.length ≤ k + 100 → arr (k % 100) = l.getD k 0)
    (h3 : ∀ j, l.length ≤ j → j < 100 → arr j = 0)
    (h5 : ∑ j in Finset.range 100, arr j = (l.drop (l.length - 100)).sum) :
    (∀ k, k < (l ++ [x]).length → (l ++ [x]).length ≤ k + 100 →
      Function.update arr (l.length % 100) x (k % 100) = (l ++ [x]).getD k 0) ∧
    (∀ j, (l ++ [x]).length ≤ j → j < 100 → Function.update arr (l.length % 100) x j = 0) ∧
    ∑ j in Finset.range 100, Function.update arr (l.length % 100) x j =
      ((l ++ [x]).drop ((l ++ [x]).length - 100)).sum := by
  have hlen : (l ++ [x]).length = l.length + 1 := by simp
  refine ⟨?_, ?_, ?_⟩
  · intro k hk1 hk2
    rw [hlen] at hk1 hk2
    rcases Nat.lt_or_ge k l.length with hlt | hge
    · have hne : k % 100 ≠ l.length % 100 := by omega
      rw [Function.update_noteq hne, List.getD_append l [x] 0 k hlt]
      exact h2 k hlt (by omega)
    · have hk : k = l.length := by omega
      subst hk
      rw [Function.update_same, List.getD_append_right l [x] 0 _ (Nat.le_refl _), Nat.sub_self]
      rfl
  · intro j hj1 hj2
    rw [hlen] at hj1
    have hne : j ≠ l.length % 100 := by omega
    rw [Function.update_noteq hne]
    exact h3 j (by omega) hj2
  · have hmem : l.length % 100 ∈ Finset.range 100 :=
      Finset.mem_range.mpr (Nat.mod_lt _ (by decide))
    have hsplit := Finset.add_sum_erase (Finset.range 100) arr hmem
    rw [Finset.sum_update_of_mem hmem, Finset.sdiff_singleton_eq_erase, hlen]
    rcases Nat.lt_or_ge l.length 100 with hlt | hge
    · have hold : arr (l.length % 100) = 0 := by
        rw [Nat.mod_eq_of_lt hlt]
        exact h3 l.length (Nat.le_refl _) hlt
      have h0 : l.length - 100 = 0 := by omega
      have h1 : l.length + 1 - 100 = 0 := by omega
      rw [h0, List.drop_zero] at h5
      rw [h1, List.drop_zero, List.sum_append, ← h5, ← hsplit, hold]
      simp
      ring
    · have hk : l.length - 100 < l.length := by omega
      have hold : arr (l.length % 100) = l[l.length - 100] := by
        have hmod : (l.length - 100) % 100 = l.length % 100 := by omega
        rw [← hmod, h2 (l.length - 100) hk (by omega), List.getD_eq_getElem l 0 hk]
      have h1 : l.length + 1 - 100 = l.length - 100 + 1 := by omega
      rw [List.drop_eq_getElem_cons hk, List.sum_cons] at h5
      rw [h1, List.drop_append_of_le_length (by omega), List.sum_append]
      have h6 : (List.drop (l.length - 100 + 1) l).sum
          = ∑ j in (Finset.range 100).erase (l.length % 100), arr j := by
        have := hsplit
        rw [h5, hold] at this
        linarith
      rw [h6]
      simp
      ring

/-- The ring buffer part of `alarmActivationUpdate`: the sample is written at
`lm35SampleIndex`, the index advances and wraps to 0 at 100, and
`lm35ReadingsAverage` is the sum of all 100 slots divided by 100. -/
theorem alarmActivationUpdate_lm35 (s : State) (inp : Inputs) :
    (alarmActivationUpdate s inp).lm35ReadingsArray =
      Function.update s.lm35ReadingsArray s.lm35SampleIndex inp.lm35 ∧
    (alarmActivationUpdate s inp).lm35SampleIndex =
      (if s.lm35SampleIndex + 1 ≥ 100 then 0 else s.lm35SampleIndex + 1) ∧
    (alarmActivationUpdate s inp).lm35ReadingsAverage =
      (∑ j in Finset.range 100, (alarmActivationUpdate s inp).lm35ReadingsArray j) / 100 := by
  have hout : ∀ t : State,
      (alarmOutputs t).lm35ReadingsArray = t.lm35ReadingsArray ∧
      (alarmOutputs t).lm35SampleIndex = t.lm35SampleIndex ∧
      (alarmOutputs t).lm35ReadingsAverage = t.lm35ReadingsAverage := by
    intro t
    unfold alarmOutputs alarmLedBlink
    dsimp only
    refine ⟨?_, ?_, ?_⟩ <;> (split_ifs <;> rfl)
  have htrig : ∀ t : State,
      (triggerChecks t inp).lm35ReadingsArray = t.lm35ReadingsArray ∧
      (triggerChecks t inp).lm35SampleIndex = t.lm35SampleIndex ∧
      (triggerChecks t inp).lm35ReadingsAverage = t.lm35ReadingsAverage := by
    intro t
    unfold triggerChecks
    dsimp only
    refine ⟨?_, ?_, ?_⟩ <;> (split_ifs <;> rfl)
  have hupd : (lm35Update s inp).lm35ReadingsArray =
        Function.update s.lm35ReadingsArray s.lm35SampleIndex inp.lm35 ∧
      (lm35Update s inp).lm35SampleIndex =
        (if s.lm35SampleIndex + 1 ≥ 100 then 0 else s.lm35SampleIndex + 1) ∧
      (lm35Update s inp).lm35ReadingsAverage =
        (∑ j in Finset.range 100,
          Function.update s.lm35ReadingsArray s.lm35SampleIndex inp.lm35 j) / 100 := by
    have hsum := lm35SumLoop_from_zero
      (Function.update s.lm35ReadingsArray s.lm35SampleIndex inp.lm35) 100
    unfold lm35Update
    dsimp only
    refine ⟨?_, ?_, ?_⟩
    · split_ifs <;> rfl
    · unfold NUMBER_OF_AVG_SAMPLES
      split_ifs <;> rfl
    · unfold NUMBER_OF_AVG_SAMPLES
      split_ifs <;> (dsimp only; rw [hsum]; norm_num)
  obtain ⟨o1, o2, o3⟩ := hout (triggerChecks (lm35Update s inp) inp)
  obtain ⟨t1, t2, t3⟩ := htrig (lm35Update s inp)
  obtain ⟨u1, u2, u3⟩ := hupd
  unfold alarmActivationUpdate
  refine ⟨?_, ?_, ?_⟩
  · rw [o1, t1, u1]
  · rw [o2, t2, u2]
  · rw [o3, t3, u3, o1, t1, u1]

/-- Running a sequence of calls and then one more call. -/
theorem runOps_append_singleton (fmt2f : ℚ → List Char) (ops : List Op) (op : Op) :
    ∀ (s : State), runOps fmt2f s (ops ++ [op]) =
      (runOps fmt2f s ops).bind (fun s1 => op.apply fmt2f s1) := by
  induction ops with
  | nil =>
    intro s
    simp only [List.nil_append, runOps, Option.some_bind]
    cases op.apply fmt2f s <;> rfl
  | cons o ops ih =>
    intro s
    simp only [List.cons_append, runOps]
    cases o.apply fmt2f s with
    | none => rfl
    | some s1 => exact ih s1

/-- The ring buffer along a run from the initial state, with `l` the samples
fed so far: the write index is `l.length mod 100`; every one of the last (at
most 100) samples `k` sits in slot `k mod 100`; the slots not yet written hold
0; the 100 slots sum to the sum of the last (at most 100) samples; and
`lm35ReadingsAverage` is the sum of the 100 slots divided by 100. -/
theorem runOps_ring (fmt2f : ℚ → List Char) (ops : List Op) :
    ∀ (s : State), runOps fmt2f initialState ops = some s →
      s.lm35SampleIndex = (samplesOf ops).length % 100 ∧
      (∀ k, k < (samplesOf ops).length → (samplesOf ops).length ≤ k + 100 →
        s.lm35ReadingsArray (k % 100) = (samplesOf ops).getD k 0) ∧
      (∀ j, (samplesOf ops).length ≤ j → j < 100 → s.lm35ReadingsArray j = 0) ∧
      ∑ j in Finset.range 100, s.lm35ReadingsArray j =
        ((samplesOf ops).drop ((samplesOf ops).length - 100)).sum ∧
      s.lm35ReadingsAverage = (∑ j in Finset.range 100, s.lm35ReadingsArray j) / 100 := by
  induction ops using List.reverseRecOn with
  | nil =>
    intro s h
    simp only [runOps, Option.some.injEq] at h
    subst h
    refine ⟨rfl, ?_, ?_, ?_, ?_⟩
    · intro k hk
      simp [samplesOf] at hk
    · intro j _ _
      rfl
    · simp [samplesOf, initialState]
    · simp [initialState]
  | append_singleton ops op ih =>
    intro s h
    rw [runOps_append_singleton] at h
    cases hrun : runOps fmt2f initialState ops with
    | none => rw [hrun] at h; cases h
    | some s1 =>
      rw [hrun] at h
      simp only [Option.some_bind] at h
      obtain ⟨i1, i2, i3, i4, i5⟩ := ih s1 hrun
      cases op with
      | activation inp =>
        simp only [Op.apply, Option.some.injEq] at h
        subst h
        have hs : samplesOf (ops ++ [Op.activation inp]) = samplesOf ops ++ [inp.lm35] := by
          simp [samplesOf, List.filterMap_append, Op.sample]
        obtain ⟨a1, a2, a3⟩ := alarmActivationUpdate_lm35 s1 inp
        obtain ⟨w2, w3, w5⟩ := ring_write s1.lm35ReadingsArray (samplesOf ops) inp.lm35 i2 i3 i4
        rw [hs]
        rw [i1] at a1 a2
        refine ⟨?_, ?_, ?_, ?_, a3⟩
        · rw [a2, List.length_append, List.length_singleton]
          split_ifs <;> omega
        · rw [a1]; exact w2
        · rw [a1]; exact w3
        · rw [a1]; exact w5
      | deactivation inp =>
        simp only [Op.apply, Option.some.injEq] at h
        subst h
        have hs : samplesOf (ops ++ [Op.deactivation inp]) = samplesOf ops := by
          simp [samplesOf, List.filterMap_append, Op.sample]
        obtain ⟨_, _, _, _, _, k6, k7, _⟩ := alarmDeactivationUpdate_keeps s1 inp
        have k8 := (alarmDeactivationUpdate_frame s1 inp).2.2
        rw [hs, k6, k7, k8]
        exact ⟨i1, i2, i3, i4, i5⟩
      | uart inp u =>
        simp only [Op.apply, Option.map_eq_some'] at h
        obtain ⟨res, hres, rfl⟩ := h
        have hs : samplesOf (ops ++ [Op.uart inp u]) = samplesOf ops := by
          simp [samplesOf, List.filterMap_append, Op.sample]
        obtain ⟨hst, _⟩ := uartTask_keeps fmt2f s1 inp u res hres
        rw [hs, hst]
        exact ⟨i1, i2, i3, i4, i5⟩

/-- A sequence of calls of `alarmActivationUpdate` alone, as a run. -/
theorem runOps_activations (fmt2f : ℚ → List Char) (inps : List Inputs) :
    ∀ (s : State), runOps fmt2f s (inps.map Op.activation) =
      some (inps.foldl alarmActivationUpdate s) := by
  induction inps with
  | nil => intro s; rfl
  | cons inp inps ih =>
    intro s
    simp only [List.map_cons, runOps, Op.apply, List.foldl_cons]
    exact ih _

/-- The samples fed by a sequence of calls of `alarmActivationUpdate`. -/
theorem samplesOf_activations (inps : List Inputs) :
    samplesOf (inps.map Op.activation) = inps.map (fun inp => inp.lm35) := by
  induction inps with
  | nil => rfl
  | cons inp inps ih =>
    simp only [samplesOf] at ih
    simp only [samplesOf, List.map_cons, List.filterMap_cons, Op.sample, ih]

/-- C17. The ring-buffer write index is always in bounds.  After `n` calls of
`alarmActivationUpdate` from the initial state `lm35SampleIndex = n mod 100`;
the same holds when the calls are interleaved with any calls of
`alarmDeactivationUpdate` and `uartTask` (`n` counts the samples fed), in
particular after `n` whole iterations of the main loop; so in every reachable
state `lm35SampleIndex < 100` (it is unsigned here, so `0 <=` holds too) and
the write `lm35ReadingsArray[lm35SampleIndex]` stays inside the 100 element
array; the next sample, number `n` counting from 0, is written to slot
`n mod 100`. -/
theorem lm35SampleIndex_in_bounds (fmt2f : ℚ → List Char) :
    (∀ (inps : List Inputs),
      (inps.foldl alarmActivationUpdate initialState).lm35SampleIndex = inps.length % 100) ∧
    (∀ (ops : List Op) (s : State), runOps fmt2f initialState ops = some s →
      s.lm35SampleIndex = (samplesOf ops).length % 100 ∧
      0 ≤ s.lm35SampleIndex ∧ s.lm35SampleIndex < 100) ∧
    (∀ (ts : List (Inputs × UartIn)) (s : State), runTicks fmt2f initialState ts = some s →
      s.lm35SampleIndex = ts.length % 100 ∧ s.lm35SampleIndex < 100) ∧
    (∀ (ops : List Op) (s : State) (inp : Inputs), runOps fmt2f initialState ops = some s →
      (alarmActivationUpdate s inp).lm35ReadingsArray =
        Function.update s.lm35ReadingsArray ((samplesOf ops).length % 100) inp.lm35 ∧
      (alarmActivationUpdate s inp).lm35ReadingsArray ((samplesOf ops).length % 100) = inp.lm35) := by
  refine ⟨?_, ?_, ?_, ?_⟩
  · intro inps
    have h := (runOps_ring fmt2f (inps.map Op.activation) _
      (runOps_activations fmt2f inps initialState)).1
    rw [h, samplesOf_activations, List.length_map]
  · intro ops s h
    have h1 := (runOps_ring fmt2f ops s h).1
    exact ⟨h1, Nat.zero_le _, by rw [h1]; exact Nat.mod_lt _ (by decide)⟩
  · intro ts s h
    rw [runTicks_eq_runOps] at h
    have h1 := (runOps_ring fmt2f _ s h).1
    rw [samplesOf_tickOps, List.length_map] at h1
    exact ⟨h1, by rw [h1]; exact Nat.mod_lt _ (by decide)⟩
  · intro ops s inp h
    have h1 := (runOps_ring fmt2f ops s h).1
    have h2 := (alarmActivationUpdate_lm35 s inp).1
    rw [h1] at h2
    refine ⟨h2, ?_⟩
    rw [h2, Function.update_same]

/-- C16. The moving average counts all 100 slots.  For every run of calls
from the initial state that has fed `n >= 0` samples (one per call of
`alarmActivationUpdate`), `lm35ReadingsAverage` equals the sum of the last
`min n 100` samples divided by 100; the slots with index `n` and above, not yet
written during the first 99 calls, hold 0 and are counted in the divisor; after
exactly 100 samples every slot `j` holds the fed sample number `j`.  In any
state at all, `alarmActivationUpdate` recomputes `lm35ReadingsAverage` as the
sum of all 100 slots divided by 100. -/
theorem lm35ReadingsAverage_over_all_slots (fmt2f : ℚ → List Char) :
    (∀ (ops : List Op) (s : State), runOps fmt2f initialState ops = some s →
      s.lm35ReadingsAverage =
        ((samplesOf ops).drop ((samplesOf ops).length - 100)).sum / 100 ∧
      ((samplesOf ops).drop ((samplesOf ops).length - 100)).length
        = min (samplesOf ops).length 100 ∧
      (∀ j, (samplesOf ops).length ≤ j → j < 100 → s.lm35ReadingsArray j = 0) ∧
      ((samplesOf ops).length = 100 →
        ∀ j, j < 100 → s.lm35ReadingsArray j = (samplesOf ops).getD j 0)) ∧
    (∀ (inps : List Inputs),
      (inps.foldl alarmActivationUpdate initialState).lm35ReadingsAverage =
        ((inps.map (fun inp => inp.lm35)).drop (inps.length - 100)).sum / 100) ∧
    (∀ (s : State) (inp : Inputs),
      (alarmActivationUpdate s inp).lm35ReadingsAverage =
        (∑ j in Finset.range 100, (alarmActivationUpdate s inp).lm35ReadingsArray j) / 100) := by
  refine ⟨?_, ?_, fun s inp => (alarmActivationUpdate_lm35 s inp).2.2⟩
  · intro ops s h
    obtain ⟨_, i2, i3, i4, i5⟩ := runOps_ring fmt2f ops s h
    refine ⟨by rw [i5, i4], ?_, i3, ?_⟩
    · rw [List.length_drop]
      omega
    · intro hn j hj
      have := i2 j (by omega) (by omega)
      rwa [Nat.mod_eq_of_lt hj] at this
  · intro inps
    obtain ⟨_, _, _, i4, i5⟩ := runOps_ring fmt2f (inps.map Op.activation) _
      (runOps_activations fmt2f inps initialState)
    rw [i5, i4, samplesOf_activations, List.length_map]

/-- The moving average along a run, as the code computes it: the sum of the
last (at most 100) samples over 100, which is their mean from the 100th sample
on. -/
theorem runOps_average (fmt2f : ℚ → List Char) (ops : List Op) (s : State)
    (h : runOps fmt2f initialState ops = some s) :
    s.lm35ReadingsAverage =
      ((samplesOf ops).drop ((samplesOf ops).length - 100)).sum / 100 ∧
    (100 ≤ (samplesOf ops).length →
      s.lm35ReadingsAverage =
        ((samplesOf ops).drop ((samplesOf ops).length - 100)).sum /
          ((min (samplesOf ops).length 100 : ℕ) : ℚ)) := by
  obtain ⟨_, _, _, i4, i5⟩ := runOps_ring fmt2f ops s h
  have h1 : s.lm35ReadingsAverage =
      ((samplesOf ops).drop ((samplesOf ops).length - 100)).sum / 100 := by rw [i5, i4]
  refine ⟨h1, fun hn => ?_⟩
  rw [h1, Nat.min_eq_right hn]
  norm_num

/-- C12, counterexample.  One call of `alarmActivationUpdate` from the initial
state with the sample 1/2: the mean of the last `min 1 100 = 1` samples is
1/2, but `lm35ReadingsAverage` is 1/200, the sample divided by 100. -/
theorem lm35ReadingsAverage_first_sample_counterexample :
    samplesOf [Op.activation warmInputs] = [1 / 2] ∧
    (alarmActivationUpdate initialState warmInputs).lm35ReadingsAverage = 1 / 200 ∧
    ([(1 : ℚ) / 2].sum / ((min 1 100 : ℕ) : ℚ)) = 1 / 2 ∧
    ¬ ((alarmActivationUpdate initialState warmInputs).lm35ReadingsAverage =
        [(1 : ℚ) / 2].sum / ((min 1 100 : ℕ) : ℚ)) := by
  have havg : (alarmActivationUpdate initialState warmInputs).lm35ReadingsAverage = 1 / 200 := by
    have h := (runOps_average (fun _ => []) [Op.activation warmInputs]
      (alarmActivationUpdate initialState warmInputs) rfl).1
    rw [h]
    have hs : samplesOf [Op.activation warmInputs] = [1 / 2] := rfl
    rw [hs]
    norm_num
  refine ⟨rfl, havg, by norm_num, ?_⟩
  rw [havg]
  norm_num

/-- C12, as the code has it.  For every run of calls from the initial state
(zero-initialised buffer) that has fed `n >= 1` samples, one per call of
`alarmActivationUpdate`, `lm35ReadingsAverage` equals the sum of the last
`min n 100` samples divided by 100; from the 100th sample on (`n >= 100`) that
is their arithmetic mean, the sum divided by `min n 100`. -/
theorem lm35ReadingsAverage_is_window_sum_over_100 (fmt2f : ℚ → List Char) (ops : List Op)
    (s : State) (h : runOps fmt2f initialState ops = some s)
    (_hn : 1 ≤ (samplesOf ops).length) :
    s.lm35ReadingsAverage =
      ((samplesOf ops).drop ((samplesOf ops).length - 100)).sum / 100 ∧
    (100 ≤ (samplesOf ops).length →
      s.lm35ReadingsAverage =
        ((samplesOf ops).drop ((samplesOf ops).length - 100)).sum /
          ((min (samplesOf ops).length 100 : ℕ) : ℚ)) :=
  runOps_average fmt2f ops s h

/-- C12 on a concrete run: 100 calls of `alarmActivationUpdate` from the
initial state, each with the sample 1/2.  The average is 1/2, the mean of the
100 samples. -/
theorem lm35ReadingsAverage_is_window_sum_over_100_witness :
    ∃ s, runOps (fun _ => []) initialState (List.replicate 100 (Op.activation warmInputs)) = some s ∧
      (samplesOf (List.replicate 100 (Op.activation warmInputs))).length = 100 ∧
      s.lm35ReadingsAverage = 1 / 2 := by
  have hret : ∃ s, runOps (fun _ => []) initialState
      (List.replicate 100 (Op.activation warmInputs)) = some s := ⟨_, rfl⟩
  obtain ⟨s, hs⟩ := hret
  have hsamples : samplesOf (List.replicate 100 (Op.activation warmInputs))
      = List.replicate 100 (1 / 2) := by
    simp [samplesOf, List.filterMap_replicate, Op.sample, warmInputs]
  have hlen : (samplesOf (List.replicate 100 (Op.activation warmInputs))).length = 100 := by
    rw [hsamples, List.length_replicate]
  obtain ⟨_, hmean⟩ := lm35ReadingsAverage_is_window_sum_over_100 (fun _ => []) _ s hs
    (by rw [hlen]; decide)
  have h := hmean (by rw [hlen])
  refine ⟨s, hs, hlen, ?_⟩
  rw [h, hlen, hsamples, Nat.sub_self, List.drop_zero, List.sum_replicate, Nat.min_self]
  norm_num

/-! ## Status lines of the serial task -/

/-- The bytes written by the status commands `1`, `2` and `3`, in every state:
the commands `1` and `3`, and `2` when no gas is detected, write a line ending
in carriage return, line feed; command `2` when gas is detected writes the
first 22 bytes of a 23 byte literal, which drops the final line feed. -/
theorem uartTask_status_lines (fmt2f : ℚ → List Char) (s : State) (inp : Inputs)
    (later : List Char) :
    (∃ res pre, uartTask fmt2f s inp ⟨some '1', later⟩ = some res ∧ res.state = s ∧
      res.rest = later ∧ res.tx = pre ++ ['\r', '\n']) ∧
    (∃ res pre, uartTask fmt2f s inp ⟨some '3', later⟩ = some res ∧ res.state = s ∧
      res.rest = later ∧ res.tx = pre ++ ['\r', '\n']) ∧
    (inp.mq2 = true →
      uartTask fmt2f s inp ⟨some '2', later⟩ =
        some ⟨s, "Gas is not being detected".toList ++ ['\r', '\n'], later⟩) ∧
    (inp.mq2 = false →
      uartTask fmt2f s inp ⟨some '2', later⟩ =
        some ⟨s, "Gas is being detected".toList ++ ['\r'], later⟩) := by
  have h21 : ¬ ('2' = '1') := by decide
  have h31 : ¬ ('3' = '1') := by decide
  have h32 : ¬ ('3' = '2') := by decide
  refine ⟨?_, ?_, ?_, ?_⟩
  · simp only [uartTask, if_true]
    cases s.alarmState
    · exact ⟨_, "The alarm is not activated".toList, rfl, rfl, rfl, rfl⟩
    · exact ⟨_, "The alarm is activated".toList, rfl, rfl, rfl, rfl⟩
  · simp only [uartTask, h31, h32, if_false, if_true]
    cases s.overTempDetector
    · exact ⟨_, "Temperature is below the maximum level".toList, rfl, rfl, rfl, rfl⟩
    · exact ⟨_, "Temperature is above the maximum level".toList, rfl, rfl, rfl, rfl⟩
  · intro h
    simp only [uartTask, h21, if_false, if_true, h]
    rfl
  · intro h
    simp only [uartTask, h21, if_false, if_true, h]
    rfl

/-- C13, evaluated where it fails.  In the initial state with gas detected
(`mq2` low) the command `2` makes `uartTask` write exactly the 22 bytes
`Gas is being detected` followed by a carriage return: the last byte written
is the carriage return, and the bytes do not end in carriage return, line
feed.  In the same state the commands `1` and `3`, and the command `2` without
gas, do write lines ending in carriage return, line feed. -/
theorem uartTask_gas_detected_line_unterminated :
    uartTask (fun _ => []) initialState gasInputs ⟨some '2', []⟩ =
      some ⟨initialState, "Gas is being detected".toList ++ ['\r'], []⟩ ∧
    ("Gas is being detected".toList ++ ['\r']).length = 22 ∧
    ("Gas is being detected".toList ++ ['\r']).getLast? = some '\r' ∧
    (¬ ∃ pre, "Gas is being detected".toList ++ ['\r'] = pre ++ ['\r', '\n']) ∧
    uartTask (fun _ => []) initialState quietInputs ⟨some '2', []⟩ =
      some ⟨initialState, "Gas is not being detected".toList ++ ['\r', '\n'], []⟩ ∧
    (∃ res pre, uartTask (fun _ => []) initialState gasInputs ⟨some '1', []⟩ = some res ∧
      res.tx = pre ++ ['\r', '\n']) ∧
    (∃ res pre, uartTask (fun _ => []) initialState gasInputs ⟨some '3', []⟩ = some res ∧
      res.tx = pre ++ ['\r', '\n']) := by
  obtain ⟨h1, h3, h2n, h2g⟩ := uartTask_status_lines (fun _ => []) initialState gasInputs []
  obtain ⟨_, _, h2q, _⟩ := uartTask_status_lines (fun _ => []) initialState quietInputs []
  refine ⟨h2g rfl, rfl, rfl, ?_, h2q rfl, ?_, ?_⟩
  · rintro ⟨pre, hpre⟩
    have hlast := congrArg List.getLast? hpre
    have hl : ("Gas is being detected".toList ++ ['\r']).getLast? = some '\r' := rfl
    rw [hl] at hlast
    simp at hlast
  · obtain ⟨res, pre, hres, _, _, htx⟩ := h1
    exact ⟨res, pre, hres, htx⟩
  · obtain ⟨res, pre, hres, _, _, htx⟩ := h3
    exact ⟨res, pre, hres, htx⟩

/-! ## The serial disarm path and the lock -/

/-- C14. The serial disarm path is not guarded by the lock.  In every state,
whatever `numberOfIncorrectCodes`, `systemBlockedLed`, `incorrectCodeLed` and
`alarmState` are, `uartTask` on command `4` followed by the four symbols of
the stored code returns, emits `The code is correct`, and leaves `alarmState`
OFF, `incorrectCodeLed` OFF and `numberOfIncorrectCodes = 0`, while
`systemBlockedLed` stays as it was.  The outcome of command `4` depends only
on `codeSequence` and the four received bytes: two states that agree on the
four code positions give the same result (accepted or rejected) and the same
output. -/
theorem serial_disarm_not_guarded (fmt2f : ℚ → List Char) :
    (∀ (s : State) (inp : Inputs) (r0 r1 r2 r3 : Char) (rest : List Char),
      ((r0 = '1' ∧ s.codeSequence 0 = 1) ∨ (r0 = '0' ∧ s.codeSequence 0 = 0)) ∧
      ((r1 = '1' ∧ s.codeSequence 1 = 1) ∨ (r1 = '0' ∧ s.codeSequence 1 = 0)) ∧
      ((r2 = '1' ∧ s.codeSequence 2 = 1) ∨ (r2 = '0' ∧ s.codeSequence 2 = 0)) ∧
      ((r3 = '1' ∧ s.codeSequence 3 = 1) ∨ (r3 = '0' ∧ s.codeSequence 3 = 0)) →
      ∃ res, uartTask fmt2f s inp ⟨some '4', r0 :: r1 :: r2 :: r3 :: rest⟩ = some res ∧
        res.rest = rest ∧
        res.tx = enterCodePrompt [] ++ ['*', '*', '*', '*'] ++
          "\r\nThe code is correct\r\n\r\n".toList ∧
        res.state.alarmState = false ∧ res.state.incorrectCodeLed = false ∧
        res.state.numberOfIncorrectCodes = 0 ∧
        res.state.systemBlockedLed = s.systemBlockedLed) ∧
    (∀ (s s' : State) (inp inp' : Inputs) (r0 r1 r2 r3 : Char) (rest : List Char),
      s.codeSequence 0 = s'.codeSequence 0 → s.codeSequence 1 = s'.codeSequence 1 →
      s.codeSequence 2 = s'.codeSequence 2 → s.codeSequence 3 = s'.codeSequence 3 →
      ∃ res res', uartTask fmt2f s inp ⟨some '4', r0 :: r1 :: r2 :: r3 :: rest⟩ = some res ∧
        uartTask fmt2f s' inp' ⟨some '4', r0 :: r1 :: r2 :: r3 :: rest⟩ = some res' ∧
        serialAttempt s ⟨some '4', r0 :: r1 :: r2 :: r3 :: rest⟩ =
          serialAttempt s' ⟨some '4', r0 :: r1 :: r2 :: r3 :: rest⟩ ∧
        res.tx = res'.tx ∧ res.rest = res'.rest ∧
        res.state.incorrectCodeLed = res'.state.incorrectCodeLed) := by
  constructor
  · intro s inp r0 r1 r2 r3 rest hcode
    obtain ⟨res, hres, hrest, hacc, _⟩ := uartTask_enterCode_cases fmt2f s inp r0 r1 r2 r3 rest
    obtain ⟨htx, ha, hl, hn⟩ := hacc hcode
    refine ⟨res, hres, hrest, htx, ha, hl, hn, ?_⟩
    rw [(uartTask_keeps fmt2f s inp _ res hres).1]
  · intro s s' inp inp' r0 r1 r2 r3 rest h0 h1 h2 h3
    rw [uartTask_enterCode_eq, uartTask_enterCode_eq, serialAttempt_eq, serialAttempt_eq,
      ← h0, ← h1, ← h2, ← h3]
    split_ifs
    · exact ⟨_, _, rfl, rfl, rfl, rfl, rfl, rfl⟩
    · exact ⟨_, _, rfl, rfl, rfl, rfl, rfl, rfl⟩

/-- C14 on the concrete state `blockedState` (alarm on, 5 failures counted,
lock indicator and incorrect-code indicator both on): the serial command `4`
with the stored code `1 1 0 0` is accepted; the alarm goes off, the counter is
reset and the lock indicator stays on. -/
theorem serial_disarm_not_guarded_witness :
    blockedState.numberOfIncorrectCodes = 5 ∧ blockedState.systemBlockedLed = true ∧
    blockedState.incorrectCodeLed = true ∧ blockedState.alarmState = true ∧
    ∃ res, uartTask (fun _ => []) blockedState quietInputs ⟨some '4', ['1', '1', '0', '0']⟩
        = some res ∧
      res.state.alarmState = false ∧ res.state.incorrectCodeLed = false ∧
      res.state.numberOfIncorrectCodes = 0 ∧ res.state.systemBlockedLed = true := by
  obtain ⟨h, _⟩ := serial_disarm_not_guarded (fun _ => [])
  obtain ⟨res, hres, _, _, ha, hl, hn, hb⟩ :=
    h blockedState quietInputs '1' '1' '0' '0' [] (by decide)
  exact ⟨rfl, rfl, rfl, rfl, res, hres, ha, hl, hn, hb⟩

/-! ## Cause flags and the blink timer along runs -/

/-- After the trigger checks the alarm is on only together with a cause flag,
provided that was so before `alarmActivationUpdate` was entered. -/
theorem triggerChecks_cause (s : State) (inp : Inputs)
    (hs : s.alarmState = true → s.gasDetectorState = true ∨ s.overTempDetectorState = true)
    (hon : (triggerChecks (lm35Update s inp) inp).alarmState = true) :
    (triggerChecks (lm35Update s inp) inp).gasDetectorState = true ∨
    (triggerChecks (lm35Update s inp) inp).overTempDetectorState = true := by
  obtain ⟨ta, tg, tov, _, _⟩ := triggerChecks_spec (lm35Update s inp) inp
  obtain ⟨_, _, _, _, fa, fg, fo, _, _⟩ := lm35Update_frame s inp
  rw [ta, fa] at hon
  rw [tg, tov, fg, fo]
  cases ha : s.alarmState with
  | true =>
    rcases hs ha with h | h
    · left; rw [h]; rfl
    · right; rw [h]; rfl
  | false =>
    rw [ha] at hon
    cases hm : inp.mq2 with
    | false => left; simp
    | true =>
      rw [hm] at hon
      cases hd : (lm35Update s inp).overTempDetector with
      | true => right; simp
      | false =>
        rw [hd] at hon
        cases ht : inp.alarmTestButton with
        | true => left; simp
        | false => rw [ht] at hon; cases hon

/-- What `alarmActivationUpdate` returns in terms of the state after the
trigger checks: the alarm state and, while the alarm is on, the cause flags. -/
theorem alarmActivationUpdate_flags (s : State) (inp : Inputs) :
    (alarmActivationUpdate s inp).alarmState =
      (triggerChecks (lm35Update s inp) inp).alarmState ∧
    ((triggerChecks (lm35Update s inp) inp).alarmState = true →
      (alarmActivationUpdate s inp).gasDetectorState =
        (triggerChecks (lm35Update s inp) inp).gasDetectorState ∧
      (alarmActivationUpdate s inp).overTempDetectorState =
        (triggerChecks (lm35Update s inp) inp).overTempDetectorState) := by
  unfold alarmActivationUpdate
  refine ⟨(alarmOutputs_frame _).2.2.2.2, fun hon => ?_⟩
  rw [alarmOutputs_of_on _ hon, alarmLedBlink_frame]
  exact ⟨rfl, rfl⟩

/-- Every call preserves: alarm on implies a cause flag is set. -/
theorem Op.apply_cause (fmt2f : ℚ → List Char) (s s' : State) (op : Op)
    (hs : s.alarmState = true → s.gasDetectorState = true ∨ s.overTempDetectorState = true)
    (h : op.apply fmt2f s = some s') :
    s'.alarmState = true → s'.gasDetectorState = true ∨ s'.overTempDetectorState = true := by
  cases op with
  | activation inp =>
    simp only [Op.apply, Option.some.injEq] at h
    subst h
    obtain ⟨ha, hf⟩ := alarmActivationUpdate_flags s inp
    intro hon
    rw [ha] at hon
    obtain ⟨hg, ho⟩ := hf hon
    rw [hg, ho]
    exact triggerChecks_cause s inp hs hon
  | deactivation inp =>
    simp only [Op.apply, Option.some.injEq] at h
    subst h
    obtain ⟨_, _, k3, k4, _, _, _, k8⟩ := alarmDeactivationUpdate_keeps s inp
    intro ha
    rw [k3, k4]
    exact hs (k8 ha)
  | uart inp u =>
    simp only [Op.apply, Option.map_eq_some'] at h
    obtain ⟨res, hres, rfl⟩ := h
    obtain ⟨hst, hon⟩ := uartTask_keeps fmt2f s inp u res hres
    intro ha
    rw [hst]
    exact hs (hon ha)

/-- C18. In every state reached from the initial state by calls of the main
loop (in particular after any number of whole iterations), `alarmState` ON
implies that `gasDetectorState` or `overTempDetectorState` is set; hence in
every `alarmActivationUpdate` entered from such a state the branch for the
alarm being on finds a cause flag set and so selects one of the three blink
periods.  Immediately after every `alarmActivationUpdate`, from any state,
`alarmState` OFF implies both cause flags OFF and `alarmLed` OFF. -/
theorem alarmState_and_cause_flags (fmt2f : ℚ → List Char) :
    (∀ (ops : List Op) (s : State), runOps fmt2f initialState ops = some s →
      s.alarmState = true → s.gasDetectorState = true ∨ s.overTempDetectorState = true) ∧
    (∀ (ts : List (Inputs × UartIn)) (s : State), runTicks fmt2f initialState ts = some s →
      s.alarmState = true → s.gasDetectorState = true ∨ s.overTempDetectorState = true) ∧
    (∀ (ops : List Op) (s : State) (inp : Inputs), runOps fmt2f initialState ops = some s →
      (triggerChecks (lm35Update s inp) inp).alarmState = true →
      (triggerChecks (lm35Update s inp) inp).gasDetectorState = true ∨
      (triggerChecks (lm35Update s inp) inp).overTempDetectorState = true) ∧
    (∀ (s : State) (inp : Inputs), (alarmActivationUpdate s inp).alarmState = false →
      (alarmActivationUpdate s inp).gasDetectorState = false ∧
      (alarmActivationUpdate s inp).overTempDetectorState = false ∧
      (alarmActivationUpdate s inp).alarmLed = false) := by
  have hinit : initialState.alarmState = true →
      initialState.gasDetectorState = true ∨ initialState.overTempDetectorState = true := by
    intro h
    cases h
  have hops : ∀ (ops : List Op) (s : State), runOps fmt2f initialState ops = some s →
      s.alarmState = true → s.gasDetectorState = true ∨ s.overTempDetectorState = true :=
    fun ops s h =>
      runOps_preserves fmt2f
        (fun s => s.alarmState = true → s.gasDetectorState = true ∨ s.overTempDetectorState = true)
        (Op.apply_cause fmt2f) ops initialState s hinit h
  refine ⟨hops, ?_, ?_, ?_⟩
  · intro ts s h
    rw [runTicks_eq_runOps] at h
    exact hops _ s h
  · intro ops s inp h hon
    exact triggerChecks_cause s inp (hops ops s h) hon
  · intro s inp hoff
    rw [(alarmActivationUpdate_flags s inp).1] at hoff
    obtain ⟨h1, h2, h3, _⟩ := alarmActivationUpdate_of_off s inp hoff
    exact ⟨h1, h2, h3⟩

/-- Every call preserves: the blink timer is a multiple of 10 between 0 and
990, and alarm on implies a cause flag is set. -/
theorem Op.apply_timer (fmt2f : ℚ → List Char) (s s' : State) (op : Op)
    (hs : (s.accumulatedTimeAlarm % 10 = 0 ∧ 0 ≤ s.accumulatedTimeAlarm ∧
        s.accumulatedTimeAlarm ≤ 990) ∧
      (s.alarmState = true → s.gasDetectorState = true ∨ s.overTempDetectorState = true))
    (h : op.apply fmt2f s = some s') :
    (s'.accumulatedTimeAlarm % 10 = 0 ∧ 0 ≤ s'.accumulatedTimeAlarm ∧
        s'.accumulatedTimeAlarm ≤ 990) ∧
      (s'.alarmState = true → s'.gasDetectorState = true ∨ s'.overTempDetectorState = true) := by
  obtain ⟨⟨hm, h0, h990⟩, hc⟩ := hs
  refine ⟨?_, Op.apply_cause fmt2f s s' op hc h⟩
  cases op with
  | activation inp =>
    simp only [Op.apply, Option.some.injEq] at h
    subst h
    have hacc : (triggerChecks (lm35Update s inp) inp).accumulatedTimeAlarm
        = s.accumulatedTimeAlarm := by
      rw [(triggerChecks_frame _ inp).2.2.2.2.1, (lm35Update_frame s inp).2.2.2.2.2.2.2.1]
    cases hon : (triggerChecks (lm35Update s inp) inp).alarmState with
    | false =>
      rw [(alarmActivationUpdate_of_off s inp hon).2.2.2.2.2]
      exact ⟨hm, h0, h990⟩
    | true =>
      have hb := alarmOutputs_blink (triggerChecks (lm35Update s inp) inp) hon
        (by rw [hacc]; unfold INT_MIN; omega) (by rw [hacc]; unfold INT_MAX; omega)
      rw [hacc] at hb
      obtain ⟨hboth, hgas, hot, _⟩ := hb
      have hcause := triggerChecks_cause s inp hc hon
      unfold alarmActivationUpdate
      cases hg : (triggerChecks (lm35Update s inp) inp).gasDetectorState <;>
        cases ho : (triggerChecks (lm35Update s inp) inp).overTempDetectorState
      · rw [hg, ho] at hcause
        rcases hcause with h | h <;> cases h
      · obtain ⟨hr, hk⟩ := hot ⟨hg, ho⟩
        rcases Int.lt_or_le (s.accumulatedTimeAlarm + 10) 500 with hlt | hge
        · rw [(hk hlt).1]; omega
        · rw [(hr hge).1]; omega
      · obtain ⟨hr, hk⟩ := hgas ⟨hg, ho⟩
        rcases Int.lt_or_le (s.accumulatedTimeAlarm + 10) 1000 with hlt | hge
        · rw [(hk hlt).1]; omega
        · rw [(hr hge).1]; omega
      · obtain ⟨hr, hk⟩ := hboth ⟨hg, ho⟩
        rcases Int.lt_or_le (s.accumulatedTimeAlarm + 10) 100 with hlt | hge
        · rw [(hk hlt).1]; omega
        · rw [(hr hge).1]; omega
  | deactivation inp =>
    simp only [Op.apply, Option.some.injEq] at h
    subst h
    rw [(alarmDeactivationUpdate_frame s inp).2.1]
    exact ⟨hm, h0, h990⟩
  | uart inp u =>
    simp only [Op.apply, Option.map_eq_some'] at h
    obtain ⟨res, hres, rfl⟩ := h
    rw [(uartTask_keeps fmt2f s inp u res hres).1]
    exact ⟨hm, h0, h990⟩

/-- C19. In every state reached from the initial state by calls of the main
loop with arbitrary inputs (in particular after any number of whole
iterations), `accumulatedTimeAlarm` is a multiple of 10 with
`0 <= accumulatedTimeAlarm <= 990`; so the addition of 10 ms in the next
`alarmActivationUpdate` stays far below `INT_MAX` and never wraps around,
whatever the cause flags, and hence the period, are from one iteration to the
next. -/
theorem accumulatedTimeAlarm_bounded (fmt2f : ℚ → List Char) :
    (∀ (ops : List Op) (s : State), runOps fmt2f initialState ops = some s →
      s.accumulatedTimeAlarm % 10 = 0 ∧ 0 ≤ s.accumulatedTimeAlarm ∧
      s.accumulatedTimeAlarm ≤ 990) ∧
    (∀ (ts : List (Inputs × UartIn)) (s : State), runTicks fmt2f initialState ts = some s →
      s.accumulatedTimeAlarm % 10 = 0 ∧ 0 ≤ s.accumulatedTimeAlarm ∧
      s.accumulatedTimeAlarm ≤ 990) ∧
    (∀ (ops : List Op) (s : State), runOps fmt2f initialState ops = some s →
      s.accumulatedTimeAlarm + TIME_INCREMENT_MS ≤ 1000 ∧
      wrapInt (s.accumulatedTimeAlarm + TIME_INCREMENT_MS)
        = s.accumulatedTimeAlarm + TIME_INCREMENT_MS) := by
  have hinit : (initialState.accumulatedTimeAlarm % 10 = 0 ∧ 0 ≤ initialState.accumulatedTimeAlarm ∧
        initialState.accumulatedTimeAlarm ≤ 990) ∧
      (initialState.alarmState = true →
        initialState.gasDetectorState = true ∨ initialState.overTempDetectorState = true) := by
    refine ⟨⟨by decide, by decide, by decide⟩, ?_⟩
    intro h
    cases h
  have hops : ∀ (ops : List Op) (s : State), runOps fmt2f initialState ops = some s →
      s.accumulatedTimeAlarm % 10 = 0 ∧ 0 ≤ s.accumulatedTimeAlarm ∧
      s.accumulatedTimeAlarm ≤ 990 :=
    fun ops s h =>
      (runOps_preserves fmt2f
        (fun s => (s.accumulatedTimeAlarm % 10 = 0 ∧ 0 ≤ s.accumulatedTimeAlarm ∧
            s.accumulatedTimeAlarm ≤ 990) ∧
          (s.alarmState = true → s.gasDetectorState = true ∨ s.overTempDetectorState = true))
        (Op.apply_timer fmt2f) ops initialState s hinit h).1
  refine ⟨hops, ?_, ?_⟩
  · intro ts s h
    rw [runTicks_eq_runOps] at h
    exact hops _ s h
  · intro ops s h
    obtain ⟨_, h0, h990⟩ := hops ops s h
    unfold TIME_INCREMENT_MS
    refine ⟨by omega, ?_⟩
    apply wrapInt_of_inRange
    · unfold INT_MIN; omega
    · unfold INT_MAX; omega

/-! ## Setting a code and entering it -/

/-- Command `5` with four bytes returns, and each of the four code positions
then holds 1 or 0 as the byte says, or its old value for any other byte. -/
theorem uartTask_newCode_code (fmt2f : ℚ → List Char) (s : State) (inp : Inputs)
    (r0 r1 r2 r3 : Char) (rest : List Char) :
    ∃ res, uartTask fmt2f s inp ⟨some '5', r0 :: r1 :: r2 :: r3 :: rest⟩ = some res ∧
      res.rest = rest ∧
      res.state.codeSequence 0 = (if r0 = '1' then 1 else if r0 = '0' then 0 else s.codeSequence 0) ∧
      res.state.codeSequence 1 = (if r1 = '1' then 1 else if r1 = '0' then 0 else s.codeSequence 1) ∧
      res.state.codeSequence 2 = (if r2 = '1' then 1 else if r2 = '0' then 0 else s.codeSequence 2) ∧
      res.state.codeSequence 3 = (if r3 = '1' then 1 else if r3 = '0' then 0 else s.codeSequence 3) := by
  have h51 : ¬ ('5' = '1') := by decide
  have h52 : ¬ ('5' = '2') := by decide
  have h53 : ¬ ('5' = '3') := by decide
  have h54 : ¬ ('5' = '4') := by decide
  have hz : ∀ r : UartResult, newCodeLoop 0 r = some r := fun _ => rfl
  simp only [uartTask, h51, h52, h53, h54, if_false, if_true, NUMBER_OF_KEYS, newCodeLoop_step, hz,
    Nat.zero_add, Nat.reduceAdd]
  refine ⟨_, rfl, rfl, ?_, ?_, ?_, ?_⟩ <;>
    simp [Function.update_apply]

/-- A byte `c` is the symbol of the digit stored for a byte `b` that is `0` or
`1` exactly when `c` is `b`. -/
theorem symbol_matches_iff (code x : Int) (b c : Char) (hb : b = '0' ∨ b = '1')
    (hcode : code = (if b = '1' then 1 else if b = '0' then 0 else x)) :
    ((c = '1' ∧ code = 1) ∨ (c = '0' ∧ code = 0)) ↔ c = b := by
  have h01 : ¬ ('0' = '1') := by decide
  have h10 : ¬ ('1' = '0') := by decide
  rcases hb with hb | hb
  · subst hb
    simp only [h01, if_false, if_true] at hcode
    subst hcode
    constructor
    · rintro (⟨_, h⟩ | ⟨h, _⟩)
      · cases h
      · exact h
    · intro h
      exact Or.inr ⟨h, rfl⟩
  · subst hb
    simp only [if_true] at hcode
    subst hcode
    constructor
    · rintro (⟨h, _⟩ | ⟨_, h⟩)
      · exact h
      · cases h
    · intro h
      exact Or.inl ⟨h, rfl⟩

/-- C20. Set-then-enter round trip.  For every state and every four bytes
`b0 b1 b2 b3`, each `0` or `1`: serial command `5` with `b0 b1 b2 b3` returns,
and in the state it leaves, serial command `4` with the same `b0 b1 b2 b3` is
accepted (`The code is correct`, `alarmState` OFF,
`numberOfIncorrectCodes = 0`), also when it arrives in the next whole
iteration of the main loop; while command `4` with any four bytes that differ
from `b0 b1 b2 b3` in at least one position is rejected
(`The code is incorrect`, `incorrectCodeLed` ON, counter incremented). -/
theorem set_then_enter_round_trip (fmt2f : ℚ → List Char) (s : State) (inp inp' : Inputs)
    (b0 b1 b2 b3 : Char) (rest rest' : List Char)
    (h0 : b0 = '0' ∨ b0 = '1') (h1 : b1 = '0' ∨ b1 = '1')
    (h2 : b2 = '0' ∨ b2 = '1') (h3 : b3 = '0' ∨ b3 = '1') :
    ∃ r5, uartTask fmt2f s inp ⟨some '5', b0 :: b1 :: b2 :: b3 :: rest⟩ = some r5 ∧
      (∃ r4, uartTask fmt2f r5.state inp' ⟨some '4', b0 :: b1 :: b2 :: b3 :: rest'⟩ = some r4 ∧
        r4.tx = enterCodePrompt [] ++ ['*', '*', '*', '*'] ++
          "\r\nThe code is correct\r\n\r\n".toList ∧
        r4.state.alarmState = false ∧ r4.state.numberOfIncorrectCodes = 0) ∧
      (∃ r4, tick fmt2f r5.state inp' ⟨some '4', b0 :: b1 :: b2 :: b3 :: rest'⟩ = some r4 ∧
        r4.tx = enterCodePrompt [] ++ ['*', '*', '*', '*'] ++
          "\r\nThe code is correct\r\n\r\n".toList ∧
        r4.state.alarmState = false ∧ r4.state.numberOfIncorrectCodes = 0) ∧
      (∀ (c0 c1 c2 c3 : Char), ¬ (c0 = b0 ∧ c1 = b1 ∧ c2 = b2 ∧ c3 = b3) →
        ∃ r4, uartTask fmt2f r5.state inp' ⟨some '4', c0 :: c1 :: c2 :: c3 :: rest'⟩ = some r4 ∧
          r4.tx = enterCodePrompt [] ++ ['*', '*', '*', '*'] ++
            "\r\nThe code is incorrect\r\n\r\n".toList ∧
          r4.state.incorrectCodeLed = true ∧
          r4.state.alarmState = r5.state.alarmState ∧
          r4.state.numberOfIncorrectCodes = wrapInt (r5.state.numberOfIncorrectCodes + 1)) := by
  obtain ⟨r5, hr5, _, k0, k1, k2, k3⟩ := uartTask_newCode_code fmt2f s inp b0 b1 b2 b3 rest
  have m0 := fun c => symbol_matches_iff (r5.state.codeSequence 0) (s.codeSequence 0) b0 c h0 k0
  have m1 := fun c => symbol_matches_iff (r5.state.codeSequence 1) (s.codeSequence 1) b1 c h1 k1
  have m2 := fun c => symbol_matches_iff (r5.state.codeSequence 2) (s.codeSequence 2) b2 c h2 k2
  have m3 := fun c => symbol_matches_iff (r5.state.codeSequence 3) (s.codeSequence 3) b3 c h3 k3
  refine ⟨r5, hr5, ?_, ?_, ?_⟩
  · obtain ⟨r4, hr4, _, hacc, _⟩ :=
      uartTask_enterCode_cases fmt2f r5.state inp' b0 b1 b2 b3 rest'
    obtain ⟨htx, ha, _, hn⟩ :=
      hacc ⟨(m0 b0).mpr rfl, (m1 b1).mpr rfl, (m2 b2).mpr rfl, (m3 b3).mpr rfl⟩
    exact ⟨r4, hr4, htx, ha, hn⟩
  · unfold tick
    have hcode : (alarmDeactivationUpdate (alarmActivationUpdate r5.state inp') inp').codeSequence
        = r5.state.codeSequence := by
      rw [(alarmDeactivationUpdate_frame _ inp').1, (alarmActivationUpdate_frame r5.state inp').2.1]
    obtain ⟨r4, hr4, _, hacc, _⟩ := uartTask_enterCode_cases fmt2f
      (alarmDeactivationUpdate (alarmActivationUpdate r5.state inp') inp') inp' b0 b1 b2 b3 rest'
    rw [hcode] at hacc
    obtain ⟨htx, ha, _, hn⟩ :=
      hacc ⟨(m0 b0).mpr rfl, (m1 b1).mpr rfl, (m2 b2).mpr rfl, (m3 b3).mpr rfl⟩
    exact ⟨r4, hr4, htx, ha, hn⟩
  · intro c0 c1 c2 c3 hne
    obtain ⟨r4, hr4, _, _, hrej⟩ :=
      uartTask_enterCode_cases fmt2f r5.state inp' c0 c1 c2 c3 rest'
    have hno : ¬ (((c0 = '1' ∧ r5.state.codeSequence 0 = 1) ∨ (c0 = '0' ∧ r5.state.codeSequence 0 = 0)) ∧
        ((c1 = '1' ∧ r5.state.codeSequence 1 = 1) ∨ (c1 = '0' ∧ r5.state.codeSequence 1 = 0)) ∧
        ((c2 = '1' ∧ r5.state.codeSequence 2 = 1) ∨ (c2 = '0' ∧ r5.state.codeSequence 2 = 0)) ∧
        ((c3 = '1' ∧ r5.state.codeSequence 3 = 1) ∨ (c3 = '0' ∧ r5.state.codeSequence 3 = 0))) := by
      rintro ⟨a0, a1, a2, a3⟩
      exact hne ⟨(m0 c0).mp a0, (m1 c1).mp a1, (m2 c2).mp a2, (m3 c3).mp a3⟩
    obtain ⟨htx, hl, hn, _⟩ := hrej hno
    refine ⟨r4, hr4, htx, hl, ?_, hn⟩
    rcases uartTask_of_serialAttempt fmt2f r5.state inp' _ r4 rfl hr4 with ⟨_, hst⟩ | ⟨_, hst⟩
    · rw [hst] at hl
      cases hl
    · rw [hst]

/-- C20 on concrete bytes, from the initial state (stored code `1 1 0 0`):
after command `5` with `0 1 0 1`, command `4` with `0 1 0 1` is accepted and
command `4` with the old code `1 1 0 0` is rejected. -/
theorem set_then_enter_round_trip_witness :
    ∃ r5, uartTask (fun _ => []) initialState quietInputs ⟨some '5', ['0', '1', '0', '1']⟩ = some r5 ∧
      (∃ r4, uartTask (fun _ => []) r5.state quietInputs ⟨some '4', ['0', '1', '0', '1']⟩ = some r4 ∧
        r4.state.alarmState = false ∧ r4.state.numberOfIncorrectCodes = 0) ∧
      (∃ r4, uartTask (fun _ => []) r5.state quietInputs ⟨some '4', ['1', '1', '0', '0']⟩ = some r4 ∧
        r4.state.incorrectCodeLed = true) := by
  obtain ⟨r5, hr5, ⟨r4, hr4, _, ha, hn⟩, _, hrej⟩ :=
    set_then_enter_round_trip (fun _ => []) initialState quietInputs quietInputs
      '0' '1' '0' '1' [] [] (Or.inl rfl) (Or.inr rfl) (Or.inl rfl) (Or.inr rfl)
  obtain ⟨r4', hr4', _, hl, _⟩ := hrej '1' '1' '0' '0' (by decide)
  exact ⟨r5, hr5, ⟨r4, hr4, ha, hn⟩, ⟨r4', hr4', hl⟩⟩

end Alarm
